import Mathlib

/-!
# Verification of the docker registry image data source

A shallow embedding, in Lean 4, of `internal/provider/data_source_docker_registry_image.go`
from `marcelmeulemans/terraform-provider-docker`.

The embedding models:
* the Go standard-library primitives the file uses (`strings.SplitN`, `strings.Split`,
  `strings.Replace`, `strings.Trim`, `strings.HasPrefix`, `encoding/base64`,
  `crypto/sha256`, `net/url` query encoding, `encoding/json` unmarshalling of the
  `TokenResponse` struct, `net/http` headers) as executable Lean functions over
  `String` / `List Char` / `List Nat` (bytes);
* the network as an explicit oracle `World : Bool → Request → Except String Response`
  (the `Bool` is the TLS `InsecureSkipVerify` flag of the transport in effect, the
  `Except.error` case is a transport-level failure of `client.Do`);
* the failure conditions of `http.NewRequest` — exactly the failure conditions of
  `net/url.Parse` — so that an invalid manifest or token-endpoint URL errors
  before any network traffic, as at source lines 100–102 and 141–143;
* the mutation of the shared `http.DefaultClient` as an explicit `GlobalHttp` state
  value threaded through calls;
* Go runtime panics (out-of-range indexing in `parseAuthHeader`) as an explicit
  `Outcome.panic` result.

Every function that the claims are about keeps the name of the Go function it embeds.
-/

namespace DockerRegistry

/-! ## Bytes, characters and small string utilities -/

/-- ASCII lower-casing of a single character (identity outside A–Z). -/
def lowerChar (c : Char) : Char :=
  if 'A' ≤ c ∧ c ≤ 'Z' then Char.ofNat (c.toNat + 32) else c

/-- ASCII lower-casing of a string. -/
def lowerStr (s : String) : String := String.mk (s.data.map lowerChar)

/-- Membership of a character in a character list. -/
def chContains (cs : List Char) (c : Char) : Bool := cs.any (fun x => x == c)

/-- Split a character list at every occurrence of `sep` (Go `strings.Split` with a
one-character separator; every separator in this source file is one character). -/
def splitChar (sep : Char) : List Char → List (List Char)
  | [] => [[]]
  | c :: rest =>
    if c = sep then [] :: splitChar sep rest
    else
      match splitChar sep rest with
      | [] => [[c]]
      | h :: t => (c :: h) :: t

/-- Go `strings.SplitN(s, sep, 2)` for a one-character separator: either
`[before, after]` at the first occurrence of `sep`, or `[s]` when `sep` is absent. -/
def splitN2Char (sep : Char) (cs : List Char) : List (List Char) :=
  if chContains cs sep then
    [cs.takeWhile (fun x => x ≠ sep), (cs.dropWhile (fun x => x ≠ sep)).drop 1]
  else [cs]

/-- Drop characters of `cut` from the front of a list. -/
def trimLeftSet (cut : List Char) (cs : List Char) : List Char :=
  cs.dropWhile (fun c => chContains cut c)

/-- Go `strings.Trim(s, cutset)`: drop characters of `cut` from both ends. -/
def trimBothSet (cut : List Char) (cs : List Char) : List Char :=
  ((trimLeftSet cut cs).reverse.dropWhile (fun c => chContains cut c)).reverse

/-- Go `strings.HasPrefix`. -/
def goStartsWith (s pre : String) : Bool := pre.data.isPrefixOf s.data

/-- Index of the first occurrence of the substring `pat` in a character list
(Go `strings.Index`); `some 0` for the empty pattern. -/
def substrIdx (pat : List Char) : List Char → Option Nat
  | [] => if pat.isEmpty then some 0 else none
  | c :: t =>
    if pat.isPrefixOf (c :: t) then some 0
    else (substrIdx pat t).map (· + 1)

/-- Go `strings.Replace(s, old, new, 1)`: replace the first occurrence of `old`.
(Go treats an empty `old` as matching before the first rune; the only call site in
this source file uses `old = registry ++ "/"`, which is never empty, and with an
empty `new` inserting nothing leaves `s` unchanged, so the guard is faithful.) -/
def goReplaceOnce (s old new : String) : String :=
  if old = "" then s
  else
    match substrIdx old.data s.data with
    | none => s
    | some i => String.mk (s.data.take i ++ new.data ++ s.data.drop (i + old.data.length))

/-- Index (from the left) of the last occurrence of a character. -/
def lastIdxOf (c : Char) (cs : List Char) : Option Nat :=
  match cs.reverse.findIdx? (fun x => x == c) with
  | some j => some (cs.length - 1 - j)
  | none => none

/-! ## Bytes: UTF-8, hex, standard base64 -/

/-- UTF-8 encoding of a single code point, as byte values. -/
def utf8EncodeCharNat (n : Nat) : List Nat :=
  if n < 128 then [n]
  else if n < 2048 then [192 + n / 64, 128 + n % 64]
  else if n < 65536 then [224 + n / 4096, 128 + n / 64 % 64, 128 + n % 64]
  else [240 + n / 262144, 128 + n / 4096 % 64, 128 + n / 64 % 64, 128 + n % 64]

/-- The bytes of a Go string (Go strings are UTF-8 byte sequences). -/
def utf8Bytes (s : String) : List Nat := s.data.flatMap (fun c => utf8EncodeCharNat c.toNat)

/-- Lowercase hexadecimal digit. -/
def hexDigitL (n : Nat) : Char := "0123456789abcdef".data.getD n '0'

/-- Uppercase hexadecimal digit (Go `net/url` percent-escapes use upper case). -/
def hexDigitU (n : Nat) : Char := "0123456789ABCDEF".data.getD n '0'

/-- Lowercase hex encoding of a byte list, two digits per byte; this is what Go's
`fmt.Sprintf("%x", ...)` produces for a byte array. -/
def bytesToHexLower (bs : List Nat) : String :=
  String.mk (bs.flatMap (fun b => [hexDigitL (b / 16), hexDigitL (b % 16)]))

/-- The standard base64 alphabet. -/
def base64Chars : List Char :=
  "ABCDEFGHIJKLMNOPQRSTUVWXYZabcdefghijklmnopqrstuvwxyz0123456789+/".data

def b64c (n : Nat) : Char := base64Chars.getD n 'A'

/-- Go `base64.StdEncoding.EncodeToString`: standard base64 with `=` padding. -/
def base64Std : List Nat → String
  | [] => ""
  | [a] => String.mk [b64c (a / 4), b64c (a % 4 * 16), '=', '=']
  | [a, b] => String.mk [b64c (a / 4), b64c (a % 4 * 16 + b / 16), b64c (b % 16 * 4), '=']
  | a :: b :: c :: rest =>
    String.mk [b64c (a / 4), b64c (a % 4 * 16 + b / 16), b64c (b % 16 * 4 + c / 64),
      b64c (c % 64)] ++ base64Std rest

/-! ## SHA-256 (`crypto/sha256.Sum256`), over byte lists, words as `Nat` mod `2^32` -/

/-- The constant `2^32`. -/
def M32 : Nat := 4294967296

/-- Right rotation of a 32-bit word. -/
def rotr32 (x n : Nat) : Nat := (x / 2 ^ n + x % 2 ^ n * 2 ^ (32 - n)) % M32

def bigSigma0 (x : Nat) : Nat := Nat.xor (rotr32 x 2) (Nat.xor (rotr32 x 13) (rotr32 x 22))
def bigSigma1 (x : Nat) : Nat := Nat.xor (rotr32 x 6) (Nat.xor (rotr32 x 11) (rotr32 x 25))
def smallSigma0 (x : Nat) : Nat := Nat.xor (rotr32 x 7) (Nat.xor (rotr32 x 18) (x / 8))
def smallSigma1 (x : Nat) : Nat := Nat.xor (rotr32 x 17) (Nat.xor (rotr32 x 19) (x / 1024))

def chFn (e f g : Nat) : Nat := Nat.xor (Nat.land e f) (Nat.land (Nat.xor e 4294967295) g)
def majFn (a b c : Nat) : Nat :=
  Nat.xor (Nat.land a b) (Nat.xor (Nat.land a c) (Nat.land b c))

/-- The 64 SHA-256 round constants of FIPS 180-4 (decimal). -/
def sha256K : List Nat :=
  [1116352408, 1899447441, 3049323471, 3921009573, 961987163, 1508970993,
   2453635748, 2870763221, 3624381080, 310598401, 607225278, 1426881987,
   1925078388, 2162078206, 2614888103, 3248222580, 3835390401, 4022224774,
   264347078, 604807628, 770255983, 1249150122, 1555081692, 1996064986,
   2554220882, 2821834349, 2952996808, 3210313671, 3336571891, 3584528711,
   113926993, 338241895, 666307205, 773529912, 1294757372, 1396182291,
   1695183700, 1986661051, 2177026350, 2456956037, 2730485921, 2820302411,
   3259730800, 3345764771, 3516065817, 3600352804, 4094571909, 275423344,
   430227734, 506948616, 659060556, 883997877, 958139571, 1322822218,
   1537002063, 1747873779, 1955562222, 2024104815, 2227730452, 2361852424,
   2428436474, 2756734187, 3204031479, 3329325298]

/-- The initial SHA-256 hash state (decimal). -/
def sha256H0 : List Nat :=
  [1779033703, 3144134277, 1013904242, 2773480762, 1359893119, 2600822924,
   528734635, 1541459225]

/-- The 16 big-endian 32-bit words of one 64-byte block. -/
def blockWords (block : List Nat) : List Nat :=
  (List.range 16).map (fun i =>
    block.getD (4 * i) 0 * 16777216 + block.getD (4 * i + 1) 0 * 65536 +
      block.getD (4 * i + 2) 0 * 256 + block.getD (4 * i + 3) 0)

/-- Extend a message schedule by the word at index `i`. -/
def sha256ExtendStep (ws : List Nat) (i : Nat) : List Nat :=
  ws ++ [(smallSigma1 (ws.getD (i - 2) 0) + ws.getD (i - 7) 0 +
          smallSigma0 (ws.getD (i - 15) 0) + ws.getD (i - 16) 0) % M32]

/-- The full 64-word message schedule of one block. -/
def sha256Schedule (ws : List Nat) : List Nat :=
  (List.range 48).foldl (fun acc j => sha256ExtendStep acc (16 + j)) ws

/-- One compression round; the state is the list `[a, b, c, d, e, f, g, h]`. -/
def sha256Round (st : List Nat) (kw : Nat × Nat) : List Nat :=
  let a := st.getD 0 0
  let b := st.getD 1 0
  let c := st.getD 2 0
  let d := st.getD 3 0
  let e := st.getD 4 0
  let f := st.getD 5 0
  let g := st.getD 6 0
  let hh := st.getD 7 0
  let t1 := (hh + bigSigma1 e + chFn e f g + kw.1 + kw.2) % M32
  let t2 := (bigSigma0 a + majFn a b c) % M32
  [(t1 + t2) % M32, a, b, c, (d + t1) % M32, e, f, g]

/-- Compress one 64-byte block into the hash state. -/
def sha256Block (h : List Nat) (block : List Nat) : List Nat :=
  let st := (sha256K.zip (sha256Schedule (blockWords block))).foldl sha256Round h
  (h.zip st).map (fun p => (p.1 + p.2) % M32)

/-- SHA-256 padding: a `0x80` byte, zeros, and the 8-byte big-endian bit length. -/
def sha256Pad (msg : List Nat) : List Nat :=
  msg ++ 128 :: (List.replicate ((119 - msg.length % 64) % 64) 0 ++
    (List.range 8).map (fun i => msg.length * 8 / 2 ^ (8 * (7 - i)) % 256))

/-- Split a byte list into 64-byte chunks (fuelled; `l.length` fuel always suffices). -/
def chunks64F : Nat → List Nat → List (List Nat)
  | 0, _ => []
  | _, [] => []
  | f + 1, c :: rest => (c :: rest).take 64 :: chunks64F f ((c :: rest).drop 64)

def chunks64 (l : List Nat) : List (List Nat) := chunks64F l.length l

/-- Go `sha256.Sum256`: the 32 digest bytes of a message. -/
def sha256Bytes (msg : List Nat) : List Nat :=
  ((chunks64 (sha256Pad msg)).foldl sha256Block sha256H0).flatMap
    (fun w => [w / 16777216 % 256, w / 65536 % 256, w / 256 % 256, w % 256])

/-! ## HTTP model: headers, requests, responses -/

/-- An HTTP header list, in insertion order. Go's `http.Header` canonicalizes header
names; we model the resulting behavior with case-insensitive name matching. -/
def headerGet (hs : List (String × String)) (k : String) : String :=
  match hs.find? (fun kv => lowerStr kv.1 == lowerStr k) with
  | some kv => kv.2
  | none => ""

/-- Go `http.Header.Add`: append a value. -/
def headerAdd (hs : List (String × String)) (k v : String) : List (String × String) :=
  hs ++ [(k, v)]

/-- Go `http.Header.Set`: replace all values of the (case-insensitively matched)
name with the single given value. -/
def headerSet (hs : List (String × String)) (k v : String) : List (String × String) :=
  hs.filter (fun kv => lowerStr kv.1 != lowerStr k) ++ [(k, v)]

/-- An outgoing request. The method is always `GET` in this source file, so only the
URL and the headers are modelled. -/
structure Request where
  url : String
  headers : List (String × String)
deriving DecidableEq

/-- An incoming response: Go's `resp.StatusCode`, `resp.Status` (the status line,
e.g. `"401 Unauthorized"`), `resp.Header`, and the body bytes. Reading an in-memory
body never fails, so the `ioutil.ReadAll` error branches of the source are
unreachable in the model. -/
structure Response where
  statusCode : Nat
  status : String
  headers : List (String × String)
  body : List Nat
deriving DecidableEq

/-- Go `(*http.Request).SetBasicAuth(u, p)`: sets the `Authorization` header to
`"Basic " ++ base64(u ++ ":" ++ p)`. -/
def setBasicAuth (r : Request) (username password : String) : Request :=
  { r with
    headers := headerSet r.headers "Authorization"
      ("Basic " ++ base64Std (utf8Bytes (username ++ ":" ++ password))) }

/-- The state of the shared `http.DefaultClient`: the `InsecureSkipVerify` flag of
the `tls.Config` of the transport most recently assigned to it. -/
structure GlobalHttp where
  insecureSkipVerify : Bool
deriving DecidableEq

/-- The network oracle: given the TLS flag of the transport in effect and a request,
produce either a transport error (`client.Do` returning a non-nil error) or a
response. -/
def World := Bool → Request → Except String Response

/-- The result of one Go call: a digest, an error (the `fmt.Errorf` message), or a
runtime panic (out-of-range indexing in `parseAuthHeader`). -/
inductive Outcome where
  | ok (digest : String)
  | err (msg : String)
  | panic
deriving DecidableEq

/-- What kind of request a trace entry records. -/
inductive ReqKind where
  | manifest
  | token
  | retry
deriving DecidableEq

/-- One network round-trip as recorded in a call's trace: which call site issued it,
the `InsecureSkipVerify` flag of the transport used, and the request itself. -/
structure TraceEntry where
  kind : ReqKind
  tls : Bool
  req : Request
deriving DecidableEq

/-- Count the trace entries of one kind. -/
def countKind (tr : List TraceEntry) (k : ReqKind) : Nat :=
  (tr.filter (fun e => e.kind == k)).length

/-! ## `net/url`: query escaping and `url.Values.Encode` -/

/-- Escape one byte as Go's `url.QueryEscape` does: alphanumerics and `-_.~` are
kept, space becomes `+`, everything else becomes `%XX` with uppercase hex. -/
def queryEscapeByte (b : Nat) : List Char :=
  if (65 ≤ b ∧ b ≤ 90) ∨ (97 ≤ b ∧ b ≤ 122) ∨ (48 ≤ b ∧ b ≤ 57) ∨
      b = 45 ∨ b = 95 ∨ b = 46 ∨ b = 126 then [Char.ofNat b]
  else if b = 32 then ['+']
  else ['%', hexDigitU (b / 16), hexDigitU (b % 16)]

/-- Go `url.QueryEscape`, applied byte-wise to the UTF-8 bytes of the string. -/
def queryEscape (s : String) : String := String.mk ((utf8Bytes s).flatMap queryEscapeByte)

/-- Byte-wise lexicographic order on strings, the order in which Go sorts map keys
in `url.Values.Encode`. -/
def lexLeBytes : List Nat → List Nat → Bool
  | [], _ => true
  | _ :: _, [] => false
  | a :: as, b :: bs => if a < b then true else if b < a then false else lexLeBytes as bs

def insertSortedByKey (kv : String × String) :
    List (String × String) → List (String × String)
  | [] => [kv]
  | x :: xs =>
    if lexLeBytes (utf8Bytes kv.1) (utf8Bytes x.1) then kv :: x :: xs
    else x :: insertSortedByKey kv xs

/-- Sort an association list by key (insertion sort, stable). -/
def sortByKey (l : List (String × String)) : List (String × String) :=
  l.foldr insertSortedByKey []

/-- Go `url.Values.Encode()`: `k=v` pairs joined by `&`, keys sorted, both keys and
values query-escaped. (Each key holds a single value at the call site modelled.) -/
def urlValuesEncode (kvs : List (String × String)) : String :=
  String.intercalate "&" ((sortByKey kvs).map (fun kv => queryEscape kv.1 ++ "=" ++ queryEscape kv.2))

/-! ## `net/url`: the failure conditions of `url.Parse`, as hit by `http.NewRequest`

`http.NewRequest` fails exactly when `url.Parse` of its URL fails (the method is
the constant `"GET"` here). Only the error side of `url.Parse` is modelled — the
parsed structure itself is never consumed by this source file, which matches
requests by their raw URL string. -/

/-- Value of one hex digit. -/
def hexVal (c : Char) : Option Nat :=
  if '0' ≤ c ∧ c ≤ '9' then some (c.toNat - 48)
  else if 'a' ≤ c ∧ c ≤ 'f' then some (c.toNat - 87)
  else if 'A' ≤ c ∧ c ≤ 'F' then some (c.toNat - 55)
  else none

/-- One character of Go's `strconv.Quote` (`%q`). Printable ASCII is kept, quote
and backslash are escaped, the named control escapes are used, remaining control
bytes become `\x..`; non-ASCII runes are kept verbatim (Go also keeps them when
printable; the unprintable ones, which Go renders as `\u` escapes, cannot occur in
any message a theorem mentions). -/
def goQuoteChar (c : Char) : List Char :=
  if c = '"' then ['\\', '"']
  else if c = '\\' then ['\\', '\\']
  else if c = '\n' then ['\\', 'n']
  else if c = '\t' then ['\\', 't']
  else if c = '\r' then ['\\', 'r']
  else if c.toNat = 7 then ['\\', 'a']
  else if c.toNat = 8 then ['\\', 'b']
  else if c.toNat = 11 then ['\\', 'v']
  else if c.toNat = 12 then ['\\', 'f']
  else if c.toNat < 32 ∨ c.toNat = 127 then
    ['\\', 'x', hexDigitL (c.toNat / 16), hexDigitL (c.toNat % 16)]
  else [c]

/-- Go `strconv.Quote`, as used by `%q` in the `net/url` error messages. -/
def goQuote (s : String) : String := String.mk ('"' :: (s.data.flatMap goQuoteChar ++ ['"']))

/-- Is a byte/character a control byte in the sense of `stringContainsCTLByte`? -/
def isCTL (c : Char) : Bool := c.toNat < 32 ∨ c.toNat = 127

def isAlpha (c : Char) : Bool := ('a' ≤ c ∧ c ≤ 'z') ∨ ('A' ≤ c ∧ c ≤ 'Z')

def isDigitC (c : Char) : Bool := '0' ≤ c ∧ c ≤ '9'

def isHexDigitC (c : Char) : Bool := (hexVal c).isSome

/-- Go's internal `split(s, sep, cutc)`: split at the FIRST occurrence of `sep`;
with `cutc` the separator is dropped from the second half. Absent separator gives
`(s, "")`. -/
def splitAtFirst (sep : Char) (cs : List Char) (cutc : Bool) : List Char × List Char :=
  if chContains cs sep then
    (cs.takeWhile (fun x => x ≠ sep),
     if cutc then (cs.dropWhile (fun x => x ≠ sep)).drop 1 else cs.dropWhile (fun x => x ≠ sep))
  else (cs, [])

/-- Go `net/url.getScheme`: a scheme is an alpha followed by alphanumerics and
`+-.` up to a colon; a leading colon is the only error ("missing protocol
scheme"); any other shape just means "no scheme". -/
def getScheme (cs : List Char) : Except String (List Char × List Char) :=
  go cs 0
where
  go : List Char → Nat → Except String (List Char × List Char)
    | [], _ => .ok ([], cs)
    | c :: rest, i =>
      if isAlpha c then go rest (i + 1)
      else if isDigitC c ∨ c = '+' ∨ c = '-' ∨ c = '.' then
        if i = 0 then .ok ([], cs) else go rest (i + 1)
      else if c = ':' then
        if i = 0 then .error "missing protocol scheme"
        else .ok (cs.take i, cs.drop (i + 1))
      else .ok ([], cs)

/-- The characters Go leaves unescaped in a host (`shouldEscape`, `encodeHost`):
alphanumerics, the unreserved marks `-_.~`, and the sub-delims
`!$&'()*+,;=:[]<>"` (the apostrophe is written by code point). -/
def isHostChar (c : Char) : Bool :=
  isAlpha c ∨ isDigitC c ∨
    chContains ['-', '_', '.', '~', '!', '$', '&', '(', ')', '*', '+', ',', ';', '=',
      ':', '[', ']', '<', '>', '"'] c ∨ c.toNat = 39

/-- The error side of Go `net/url.unescape`: a `%` must be followed by two hex
digits (else `invalid URL escape %q` of the offending 1–3 characters); in host
mode an escape may only encode a non-ASCII byte (first hex digit ≥ 8) except
`%25`, and an unescaped ASCII character must be a legal host character (else
`invalid character %q in host name`). -/
def unescapeErr (hostMode : Bool) : List Char → Option String
  | [] => none
  | '%' :: rest =>
    match rest with
    | h1 :: h2 :: r2 =>
      if isHexDigitC h1 ∧ isHexDigitC h2 then
        if hostMode ∧ (hexVal h1).getD 0 < 8 ∧ ¬(h1 = '2' ∧ h2 = '5') then
          some ("invalid URL escape " ++ goQuote (String.mk ['%', h1, h2]))
        else unescapeErr hostMode r2
      else some ("invalid URL escape " ++ goQuote (String.mk ['%', h1, h2]))
    | _ => some ("invalid URL escape " ++ goQuote (String.mk ('%' :: rest)))
  | c :: rest =>
    if hostMode ∧ c.toNat < 128 ∧ ¬ isHostChar c then
      some ("invalid character " ++ goQuote (String.mk [c]) ++ " in host name")
    else unescapeErr hostMode rest

/-- Go `net/url.validOptionalPort`: empty, or a colon followed by digits. -/
def validOptionalPort : List Char → Bool
  | [] => true
  | ':' :: rest => rest.all (fun c => isDigitC c)
  | _ => false

/-- Go `net/url.validUserinfo`: alphanumerics and `-._:~!$&'()*+,;=%@` (the
apostrophe by code point). -/
def validUserinfoChar (c : Char) : Bool :=
  isAlpha c ∨ isDigitC c ∨
    chContains ['-', '.', '_', ':', '~', '!', '$', '&', '(', ')', '*', '+', ',', ';', '=',
      '%', '@'] c ∨ c.toNat = 39

/-- The error side of Go `net/url.parseHost`: bracketed hosts need a closing
bracket and a valid optional port (an IPv6 zone after `%25` is unescaped
piecewise; zone mode is validated with the host character rules, a harmless
approximation of `encodeZone`); other hosts need a valid optional port after the
last colon; then the whole host is escape-validated in host mode. -/
def parseHostErr (host : List Char) : Option String :=
  match host with
  | '[' :: _ =>
    match lastIdxOf ']' host with
    | none => some "missing ']' in host"
    | some i =>
      let colonPort := host.drop (i + 1)
      if ¬ validOptionalPort colonPort then
        some ("invalid port " ++ goQuote (String.mk colonPort) ++ " after host")
      else
        match substrIdx ['%', '2', '5'] (host.take i) with
        | some z =>
          match unescapeErr true (host.take z) with
          | some e => some e
          | none =>
            match unescapeErr true ((host.take i).drop z) with
            | some e => some e
            | none => unescapeErr true (host.drop i)
        | none => unescapeErr true host
  | _ =>
    match lastIdxOf ':' host with
    | some i =>
      let colonPort := host.drop i
      if ¬ validOptionalPort colonPort then
        some ("invalid port " ++ goQuote (String.mk colonPort) ++ " after host")
      else unescapeErr true host
    | none => unescapeErr true host

/-- The error side of Go `net/url.parseAuthority`: the host (after the LAST `@`)
is validated first; then the userinfo characters, then the userinfo escapes (on
both sides of the first colon when one is present). -/
def parseAuthorityErr (authority : List Char) : Option String :=
  match lastIdxOf '@' authority with
  | none => parseHostErr authority
  | some i =>
    match parseHostErr (authority.drop (i + 1)) with
    | some e => some e
    | none =>
      let userinfo := authority.take i
      if ¬ userinfo.all validUserinfoChar then some "net/url: invalid userinfo"
      else if chContains userinfo ':' then
        match unescapeErr false (userinfo.takeWhile (fun x => x ≠ ':')) with
        | some e => some e
        | none => unescapeErr false ((userinfo.dropWhile (fun x => x ≠ ':')).drop 1)
      else unescapeErr false userinfo

/-- The error side of Go `net/url.parse` with `viaRequest = false` (the fragment
is already split off): the control-byte check, the `*` special case, the scheme,
the `?` / ForceQuery split (the raw query is NOT validated), the opaque shortcut
(a scheme with a non-`/` rest ends parsing with no further validation), the
no-scheme first-segment colon check, the authority (between `//` and the next
`/`), and finally the path escapes. -/
def urlParseCoreErr (cs : List Char) : Option String :=
  if cs.any isCTL then some "net/url: invalid control character in URL"
  else if cs = ['*'] then none
  else
    match getScheme cs with
    | .error e => some e
    | .ok sr =>
      let scheme := sr.1
      let rest0 := sr.2
      let rest :=
        if rest0.getLast? = some '?' ∧ ¬ chContains rest0.dropLast '?' then rest0.dropLast
        else (splitAtFirst '?' rest0 true).1
      if ¬ ['/'].isPrefixOf rest ∧ scheme ≠ [] then none
      else if ¬ ['/'].isPrefixOf rest ∧ chContains (splitAtFirst '/' rest true).1 ':' then
        some "first path segment in URL cannot contain colon"
      else if (scheme ≠ [] ∨ ¬ ['/', '/', '/'].isPrefixOf rest) ∧ ['/', '/'].isPrefixOf rest then
        let ar := splitAtFirst '/' (rest.drop 2) false
        match parseAuthorityErr ar.1 with
        | some e => some e
        | none => unescapeErr false ar.2
      else unescapeErr false rest

/-- The error side of Go `net/url.Parse`: split the fragment at the first `#`,
parse the rest (errors wrapped as `parse %q: ...` of the fragment-less part),
then validate the fragment escapes (wrapped with the full raw URL). -/
def urlParseErr (raw : List Char) : Option String :=
  let uf := splitAtFirst '#' raw true
  match urlParseCoreErr uf.1 with
  | some e => some ("parse " ++ goQuote (String.mk uf.1) ++ ": " ++ e)
  | none =>
    if uf.2 = [] then none
    else
      match unescapeErr false uf.2 with
      | some e => some ("parse " ++ goQuote (String.mk raw) ++ ": " ++ e)
      | none => none

/-- The failure of `http.NewRequest("GET", u, nil)`: exactly a `url.Parse`
failure. -/
def newRequestErr (u : String) : Option String := urlParseErr u.data

/-! ## `encoding/json`: unmarshalling the token response -/

/-- Go struct `TokenResponse struct { Token string }`. -/
structure TokenResponse where
  Token : String
deriving DecidableEq

instance {ε α : Type} [DecidableEq ε] [DecidableEq α] : DecidableEq (Except ε α) := fun a b =>
  match a, b with
  | .ok x, .ok y => if h : x = y then isTrue (by rw [h]) else isFalse (by simp [h])
  | .error x, .error y => if h : x = y then isTrue (by rw [h]) else isFalse (by simp [h])
  | .ok _, .error _ => isFalse (by simp)
  | .error _, .ok _ => isFalse (by simp)

/-- The replacement character U+FFFD. -/
def fffd : Char := Char.ofNat 65533

/-- Is a byte a UTF-8 continuation byte? -/
def isCont (b : Nat) : Bool := 128 ≤ b ∧ b ≤ 191

/-- Decode UTF-8 bytes to characters, replacing each invalid byte with U+FFFD as
Go's decoder does (fuelled; `bs.length` fuel always suffices). -/
def utf8Decode : Nat → List Nat → List Char
  | 0, _ => []
  | _, [] => []
  | f + 1, b :: rest =>
    if b < 128 then Char.ofNat b :: utf8Decode f rest
    else if 194 ≤ b ∧ b ≤ 223 then
      match rest with
      | b2 :: r2 =>
        if isCont b2 then Char.ofNat ((b - 192) * 64 + (b2 - 128)) :: utf8Decode f r2
        else fffd :: utf8Decode f rest
      | [] => [fffd]
    else if 224 ≤ b ∧ b ≤ 239 then
      match rest with
      | b2 :: b3 :: r3 =>
        let ok2 := if b = 224 then 160 ≤ b2 ∧ b2 ≤ 191
                   else if b = 237 then 128 ≤ b2 ∧ b2 ≤ 159
                   else isCont b2
        if ok2 ∧ isCont b3 then
          Char.ofNat ((b - 224) * 4096 + (b2 - 128) * 64 + (b3 - 128)) :: utf8Decode f r3
        else fffd :: utf8Decode f rest
      | _ => fffd :: utf8Decode f rest
    else if 240 ≤ b ∧ b ≤ 244 then
      match rest with
      | b2 :: b3 :: b4 :: r4 =>
        let ok2 := if b = 240 then 144 ≤ b2 ∧ b2 ≤ 191
                   else if b = 244 then 128 ≤ b2 ∧ b2 ≤ 143
                   else isCont b2
        if ok2 ∧ isCont b3 ∧ isCont b4 then
          Char.ofNat ((b - 240) * 262144 + (b2 - 128) * 4096 + (b3 - 128) * 64 + (b4 - 128)) ::
            utf8Decode f r4
        else fffd :: utf8Decode f rest
      | _ => fffd :: utf8Decode f rest
    else fffd :: utf8Decode f rest

/-- A parsed JSON value. Numbers carry no payload: the decoder only needs their
syntactic validity, never their value. -/
inductive Jval where
  | jnull
  | jbool (b : Bool)
  | jnum
  | jstr (s : String)
  | jarr (elems : List Jval)
  | jobj (fields : List (String × Jval))

/-- JSON whitespace. -/
def jsonWs (c : Char) : Bool := c = ' ' ∨ c = '\t' ∨ c = '\n' ∨ c = '\r'

def skipWs (cs : List Char) : List Char := cs.dropWhile jsonWs

/-- Four hex digits. -/
def jparseHex4 : List Char → Option (Nat × List Char)
  | c1 :: c2 :: c3 :: c4 :: rest =>
    match hexVal c1, hexVal c2, hexVal c3, hexVal c4 with
    | some a, some b, some c, some d => some (a * 4096 + b * 256 + c * 16 + d, rest)
    | _, _, _, _ => none
  | _ => none

/-- Single-character escapes of JSON strings. -/
def jescape (c : Char) : Option Char :=
  if c = '"' then some '"'
  else if c = '\\' then some '\\'
  else if c = '/' then some '/'
  else if c = 'b' then some (Char.ofNat 8)
  else if c = 'f' then some (Char.ofNat 12)
  else if c = 'n' then some '\n'
  else if c = 'r' then some '\r'
  else if c = 't' then some '\t'
  else none

/-- Parse the body of a JSON string after the opening quote; returns the decoded
characters and the rest of the input. Unpaired surrogates become U+FFFD, as in Go. -/
def jparseStr : Nat → List Char → Except String (List Char × List Char)
  | 0, _ => .error "json: internal fuel exhausted"
  | _ + 1, [] => .error "unexpected end of JSON input"
  | f + 1, c :: rest =>
    if c = '"' then .ok ([], rest)
    else if c = '\\' then
      match rest with
      | [] => .error "unexpected end of JSON input"
      | e :: r2 =>
        if e = 'u' then
          match jparseHex4 r2 with
          | none => .error "invalid character in string escape code"
          | some (n, r3) =>
            if 55296 ≤ n ∧ n ≤ 56319 then
              match r3 with
              | '\\' :: 'u' :: r4 =>
                match jparseHex4 r4 with
                | some (n2, r5) =>
                  if 56320 ≤ n2 ∧ n2 ≤ 57343 then
                    (fun p => (Char.ofNat (65536 + (n - 55296) * 1024 + (n2 - 56320)) :: p.1, p.2)) <$>
                      jparseStr f r5
                  else (fun p => (fffd :: p.1, p.2)) <$> jparseStr f r3
                | none => (fun p => (fffd :: p.1, p.2)) <$> jparseStr f r3
              | _ => (fun p => (fffd :: p.1, p.2)) <$> jparseStr f r3
            else if 56320 ≤ n ∧ n ≤ 57343 then
              (fun p => (fffd :: p.1, p.2)) <$> jparseStr f r3
            else (fun p => (Char.ofNat n :: p.1, p.2)) <$> jparseStr f r3
        else
          match jescape e with
          | some d => (fun p => (d :: p.1, p.2)) <$> jparseStr f r2
          | none => .error "invalid character in string escape code"
    else if c.toNat < 32 then .error "invalid character in string literal"
    else (fun p => (c :: p.1, p.2)) <$> jparseStr f rest

/-- Parse the digits of a JSON number after an optional sign, validating the
grammar `int frac? exp?`; returns the rest of the input. -/
def jparseNumTail (cs : List Char) : Except String (List Char) :=
  let intDone : List Char → Except String (List Char) := fun r =>
    match r with
    | '.' :: r2 =>
      let fr := r2.takeWhile Char.isDigit
      if fr.isEmpty then .error "invalid character in numeric literal"
      else
        match r2.drop fr.length with
        | 'e' :: r3 => expTail r3
        | 'E' :: r3 => expTail r3
        | r3 => .ok r3
    | 'e' :: r2 => expTail r2
    | 'E' :: r2 => expTail r2
    | r => .ok r
  match cs with
  | '0' :: r => intDone r
  | c :: r =>
    if '1' ≤ c ∧ c ≤ '9' then intDone (r.dropWhile Char.isDigit)
    else .error "invalid character in numeric literal"
  | [] => .error "unexpected end of JSON input"
where
  expTail (r : List Char) : Except String (List Char) :=
    let r2 := match r with
      | '+' :: r2 => r2
      | '-' :: r2 => r2
      | r2 => r2
    let ds := r2.takeWhile Char.isDigit
    if ds.isEmpty then .error "invalid character in exponent of numeric literal"
    else .ok (r2.drop ds.length)

mutual

/-- Parse one JSON value (leading whitespace allowed); fuelled. -/
def jparseVal : Nat → List Char → Except String (Jval × List Char)
  | 0, _ => .error "json: internal fuel exhausted"
  | f + 1, cs =>
    match skipWs cs with
    | [] => .error "unexpected end of JSON input"
    | c :: rest =>
      if c = '\x7b' then
        match skipWs rest with
        | '\x7d' :: r2 => .ok (.jobj [], r2)
        | cs2 => jparseObj f cs2 []
      else if c = '[' then
        match skipWs rest with
        | ']' :: r2 => .ok (.jarr [], r2)
        | cs2 => jparseArr f cs2 []
      else if c = '"' then
        (fun p => (Jval.jstr (String.mk p.1), p.2)) <$> jparseStr f rest
      else if c = 't' then
        match rest with
        | 'r' :: 'u' :: 'e' :: r2 => .ok (.jbool true, r2)
        | _ => .error "invalid character in literal true"
      else if c = 'f' then
        match rest with
        | 'a' :: 'l' :: 's' :: 'e' :: r2 => .ok (.jbool false, r2)
        | _ => .error "invalid character in literal false"
      else if c = 'n' then
        match rest with
        | 'u' :: 'l' :: 'l' :: r2 => .ok (.jnull, r2)
        | _ => .error "invalid character in literal null"
      else if c = '-' then
        (fun r => (Jval.jnum, r)) <$> jparseNumTail rest
      else if c.isDigit then
        (fun r => (Jval.jnum, r)) <$> jparseNumTail (c :: rest)
      else .error "invalid character looking for beginning of value"

/-- Parse the members of a JSON object, positioned at a key (after `\x7b` or `,`,
whitespace skipped). -/
def jparseObj : Nat → List Char → List (String × Jval) → Except String (Jval × List Char)
  | 0, _, _ => .error "json: internal fuel exhausted"
  | f + 1, cs, acc =>
    match cs with
    | '"' :: rest =>
      match jparseStr f rest with
      | .error e => .error e
      | .ok (key, r2) =>
        match skipWs r2 with
        | ':' :: r3 =>
          match jparseVal f r3 with
          | .error e => .error e
          | .ok (v, r4) =>
            match skipWs r4 with
            | ',' :: r5 => jparseObj f (skipWs r5) (acc ++ [(String.mk key, v)])
            | '\x7d' :: r5 => .ok (.jobj (acc ++ [(String.mk key, v)]), r5)
            | _ => .error "invalid character after object key:value pair"
        | _ => .error "invalid character after object key"
    | _ => .error "invalid character looking for beginning of object key string"

/-- Parse the elements of a JSON array, positioned at a value. -/
def jparseArr : Nat → List Char → List Jval → Except String (Jval × List Char)
  | 0, _, _ => .error "json: internal fuel exhausted"
  | f + 1, cs, acc =>
    match jparseVal f cs with
    | .error e => .error e
    | .ok (v, r) =>
      match skipWs r with
      | ',' :: r2 => jparseArr f r2 (acc ++ [v])
      | ']' :: r2 => .ok (.jarr (acc ++ [v]), r2)
      | _ => .error "invalid character after array element"

end

/-- Decode the fields of a JSON object into the `Token` field, as `encoding/json`
does for `TokenResponse`: keys are matched case-insensitively, later occurrences
overwrite earlier ones, `null` leaves the field unchanged, a non-string value for a
matching key is a type error, and a missing key is NOT an error (the field keeps its
zero value `""`). -/
def decodeTokenField : List (String × Jval) → String → Except String String
  | [], acc => .ok acc
  | (k, v) :: rest, acc =>
    if lowerStr k = "token" then
      match v with
      | .jstr s => decodeTokenField rest s
      | .jnull => decodeTokenField rest acc
      | _ => .error "json: cannot unmarshal value into Go struct field TokenResponse.Token of type string"
    else decodeTokenField rest acc

/-- Go `json.Unmarshal(body, &TokenResponse)`: parse the body as a single JSON
value (trailing whitespace only), then decode. A top-level `null` leaves the zero
value; any other non-object top level is a type error. -/
def unmarshalTokenResponse (body : List Nat) : Except String TokenResponse :=
  match jparseVal (2 * body.length + 16) (utf8Decode body.length body) with
  | .error e => .error e
  | .ok (v, rest) =>
    if (skipWs rest).isEmpty then
      match v with
      | .jnull => .ok { Token := "" }
      | .jobj fields => (fun t => { Token := t }) <$> decodeTokenField fields ""
      | _ => .error "json: cannot unmarshal value into Go value of type provider.TokenResponse"
    else .error "invalid character after top-level value"

/-! ## `parseAuthHeader` (lines 195–208 of the source) -/

/-- Go map assignment `m[k] = v` on an association list: replace in place or append. -/
def assocSet (m : List (String × String)) (k v : String) : List (String × String) :=
  match m with
  | [] => [(k, v)]
  | (k2, v2) :: rest => if k2 = k then (k, v) :: rest else (k2, v2) :: assocSet rest k v

/-- Go map lookup `m[k]` with the zero value `""` for an absent key. -/
def authGet (m : List (String × String)) (k : String) : String :=
  match m.find? (fun kv => kv.1 == k) with
  | some kv => kv.2
  | none => ""

/-- The cutset of `strings.Trim(vals[1], "\", ")`: quote, comma, space. -/
def authTrimCutset : List Char := ['"', ',', ' ']

/-- Go `parseAuthHeader`: split the header at the first space, split the remainder
on commas, split each part at the first `=`, trim the value. The source indexes
`parts[1]` and `vals[1]` without bounds checks; when the header has no space, or a
part has no `=`, Go panics with an index-out-of-range error — modelled as `none`. -/
def parseAuthHeader (header : String) : Option (List (String × String)) :=
  match splitN2Char ' ' header.data with
  | [_, rest] =>
    (splitChar ',' rest).foldlM
      (fun opts part =>
        match splitN2Char '=' part with
        | [k, v] => some (assocSet opts (String.mk k) (String.mk (trimBothSet authTrimCutset v)))
        | _ => none)
      []
  | _ => none

/-- The precondition under which `parseAuthHeader` is well defined (claim C10): the
header contains a space, and every comma-separated parameter after the scheme token
contains an `=`. -/
def authHeaderWF (h : String) : Bool :=
  chContains h.data ' ' &&
    (match splitN2Char ' ' h.data with
     | [_, rest] => (splitChar ',' rest).all (fun p => chContains p '=')
     | _ => false)

/-! ## `getDigestFromResponse` (lines 210–223 of the source) -/

/-- Go `getDigestFromResponse`: return the `Docker-Content-Digest` header verbatim
when non-empty, otherwise hash the body. (`ioutil.ReadAll` of an in-memory body
cannot fail, so the `BodyReadError` branch is unreachable in the model.) -/
def getDigestFromResponse (response : Response) : Except String String :=
  let header := headerGet response.headers "Docker-Content-Digest"
  if header = "" then
    .ok ("sha256:" ++ bytesToHexLower (sha256Bytes response.body))
  else .ok header

/-- Adapt a Go `(string, error)` pair to an `Outcome`. -/
def outcomeOfDigest : Except String String → Outcome
  | .ok d => .ok d
  | .error e => .err e

/-! ## `getImageDigest` (lines 94–188 of the source) -/

/-- The URL of line 99: `https://<registry>/v2/<image>/manifests/<tag>`. -/
def manifestURL (registry image tag : String) : String :=
  "https://" ++ registry ++ "/v2/" ++ image ++ "/manifests/" ++ tag

/-- The initial manifest request of `getImageDigest`, exactly as lines 99–121 build
it: URL, then the credential header (basic auth everywhere except `ghcr.io`, which
gets the base64 of the password as a bearer token), then the four modern `Accept`
values, replaced by the single legacy media type when `fallback` is set. (The
`http.NewRequest` URL check of lines 99–102 is performed by the caller,
`getImageDigestCore`, before this request exists.) -/
def buildManifestRequest (registry image tag username password : String)
    (fallback : Bool) : Request :=
  let req : Request :=
    { url := manifestURL registry image tag, headers := [] }
  let req :=
    if username ≠ "" then
      if registry ≠ "ghcr.io" then setBasicAuth req username password
      else { req with
             headers := headerAdd req.headers "Authorization"
               ("Bearer " ++ base64Std (utf8Bytes password)) }
    else req
  let req :=
    { req with
      headers :=
        headerAdd (headerAdd (headerAdd (headerAdd req.headers
          "Accept" "application/vnd.docker.distribution.manifest.v2+json")
          "Accept" "application/vnd.docker.distribution.manifest.list.v2+json")
          "Accept" "application/vnd.oci.image.manifest.v1+json")
          "Accept" "application/vnd.oci.image.index.v1+json" }
  if fallback then
    { req with
      headers := headerSet req.headers "Accept"
        "application/vnd.docker.distribution.manifest.v1+prettyjws" }
  else req

/-- The URL of line 140: `<realm>?<url.Values.Encode()>` with the `service` and
`scope` challenge parameters. -/
def buildTokenURL (auth : List (String × String)) : String :=
  authGet auth "realm" ++ "?" ++
    urlValuesEncode [("service", authGet auth "service"), ("scope", authGet auth "scope")]

/-- The token-endpoint request of lines 137–147: `GET <realm>?<url.Values.Encode()>`
and basic auth when a username is present. (The `http.NewRequest` URL check of
lines 140–143 is performed by the caller before this request exists.) -/
def buildTokenRequest (auth : List (String × String)) (username password : String) :
    Request :=
  let req : Request := { url := buildTokenURL auth, headers := [] }
  if username ≠ "" then setBasicAuth req username password else req

/-- The body of `getImageDigest` after the transport has been configured: build
the manifest request (lines 99–102: an invalid URL makes `http.NewRequest` fail
with `Error creating registry request` before any network traffic), issue it,
dispatch on the status code, and run the bearer handshake on a 401 with a
`Bearer` challenge (lines 140–143: an invalid token URL — e.g. a realm with a bad
percent-escape — likewise fails before the token fetch). Returns the outcome
together with the trace of issued requests. -/
def getImageDigestCore (world : World) (skip : Bool)
    (registry image tag username password : String) (fallback : Bool) :
    Outcome × List TraceEntry :=
  match newRequestErr (manifestURL registry image tag) with
  | some e => (.err ("Error creating registry request: " ++ e), [])
  | none =>
  let req := buildManifestRequest registry image tag username password fallback
  let t0 : List TraceEntry := [⟨.manifest, skip, req⟩]
  match world skip req with
  | .error e => (.err ("Error during registry request: " ++ e), t0)
  | .ok resp =>
    if resp.statusCode = 200 then
      (outcomeOfDigest (getDigestFromResponse resp), t0)
    else if resp.statusCode = 401 then
      if goStartsWith (headerGet resp.headers "www-authenticate") "Bearer" then
        match parseAuthHeader (headerGet resp.headers "www-authenticate") with
        | none => (.panic, t0)
        | some auth =>
          match newRequestErr (buildTokenURL auth) with
          | some e => (.err ("Error creating registry request: " ++ e), t0)
          | none =>
          let tokenReq := buildTokenRequest auth username password
          let t1 := t0 ++ [⟨.token, skip, tokenReq⟩]
          match world skip tokenReq with
          | .error e => (.err ("Error during registry request: " ++ e), t1)
          | .ok tokenResp =>
            if tokenResp.statusCode ≠ 200 then
              (.err ("Got bad response from registry: " ++ tokenResp.status), t1)
            else
              match unmarshalTokenResponse tokenResp.body with
              | .error e => (.err ("Error parsing OAuth token response: " ++ e), t1)
              | .ok token =>
                let req2 : Request :=
                  { req with
                    headers := headerSet req.headers "Authorization" ("Bearer " ++ token.Token) }
                let t2 := t1 ++ [⟨.retry, skip, req2⟩]
                match world skip req2 with
                | .error e => (.err ("Error during registry request: " ++ e), t2)
                | .ok digestResponse =>
                  if digestResponse.statusCode ≠ 200 then
                    (.err ("Got bad response from registry: " ++ digestResponse.status), t2)
                  else (outcomeOfDigest (getDigestFromResponse digestResponse), t2)
      else (.err ("Bad credentials: " ++ resp.status), t0)
    else (.err ("Got bad response from registry: " ++ resp.status), t0)

/-- Go `getImageDigest`. Lines 95–97 take the process-wide `http.DefaultClient` and
overwrite its `Transport` with a fresh one carrying this call's
`InsecureSkipVerify` flag: the incoming `GlobalHttp` state is discarded and the
returned state is the one this call wrote, which every request of the call (and
any later user of the shared client) observes. -/
def getImageDigest (world : World) (_g : GlobalHttp)
    (registry image tag username password : String)
    (insecureSkipVerify fallback : Bool) :
    GlobalHttp × Outcome × List TraceEntry :=
  (⟨insecureSkipVerify⟩,
   getImageDigestCore world insecureSkipVerify registry image tag username password fallback)

/-! ## The read entry point (lines 48–92 of the source) -/

/-- The `diag.Errorf` message of line 84. -/
def wrapReadErr (repository tag e : String) : String :=
  "Got error when attempting to fetch image version " ++ repository ++ ":" ++ tag ++
    " from registry: " ++ e

/-- Lines 80–86 of `dataSourceDockerRegistryImageRead`: call `getImageDigest` with
the modern media types; on error, call it again with the legacy media type; if that
also errors, surface the second error wrapped in the `diag.Errorf` message. A Go
panic propagates, so no second attempt happens after a panic. -/
def readImageDigest (world : World) (g : GlobalHttp)
    (registry repository tag username password : String) (insecureSkipVerify : Bool) :
    GlobalHttp × Outcome × List TraceEntry :=
  let first := getImageDigest world g registry repository tag username password
    insecureSkipVerify false
  match first.2.1 with
  | .ok d => (first.1, .ok d, first.2.2)
  | .panic => (first.1, .panic, first.2.2)
  | .err _ =>
    let second := getImageDigest world first.1 registry repository tag username password
      insecureSkipVerify true
    match second.2.1 with
    | .ok d => (second.1, .ok d, first.2.2 ++ second.2.2)
    | .panic => (second.1, .panic, first.2.2 ++ second.2.2)
    | .err e2 => (second.1, .err (wrapReadErr repository tag e2), first.2.2 ++ second.2.2)

/-! ## Reference parsing and normalization (lines 48–69 of the source) -/

/-- The `internalPullImageOptions` triple. -/
structure ImageOptions where
  Registry : String
  Repository : String
  Tag : String
deriving DecidableEq

/-- Modelled from the spec: `parseImageOptions` is code of this repository that is
not under `src/` (only its caller is). Spec §4.1: (1) if the string contains a
colon after the last `/`, the substring after that colon is the tag; (2) if the
first path segment (before the first `/`) contains a `.` or `:`, it is the
registry and the rest is the repository, otherwise the registry is empty and the
whole remainder is the repository. -/
def parseImageOptions (image : String) : ImageOptions :=
  let cs := image.data
  let repoTag :=
    match lastIdxOf ':' cs with
    | none => (cs, ([] : List Char))
    | some i =>
      match lastIdxOf '/' cs with
      | none => (cs.take i, cs.drop (i + 1))
      | some j => if j < i then (cs.take i, cs.drop (i + 1)) else (cs, [])
  let regRepo :=
    match repoTag.1.findIdx? (fun x => x == '/') with
    | none => (([] : List Char), repoTag.1)
    | some k =>
      let seg := repoTag.1.take k
      if chContains seg '.' || chContains seg ':' then (seg, repoTag.1.drop (k + 1))
      else ([], repoTag.1)
  { Registry := String.mk regRepo.1, Repository := String.mk regRepo.2,
    Tag := String.mk repoTag.2 }

/-- Lines 52–69: default the registry to `registry-1.docker.io`; otherwise filter
the registry name out of the repository with `strings.Replace(repo, registry ++ "/",
"", 1)`; prepend `library/` for single-segment repositories on the default
registry; default the tag to `latest`. -/
def normalizeImageOptions (p : ImageOptions) : ImageOptions :=
  let p :=
    if p.Registry = "" then { p with Registry := "registry-1.docker.io" }
    else { p with Repository := goReplaceOnce p.Repository (p.Registry ++ "/") "" }
  let p :=
    if p.Registry = "registry-1.docker.io" then
      if chContains p.Repository.data '/' then p
      else { p with Repository := "library/" ++ p.Repository }
    else p
  if p.Tag = "" then { p with Tag := "latest" } else p

/-- Normalization as claim C6 words it: the registry prefix is stripped only when
the repository literally STARTS WITH `registry ++ "/"`. (The code instead removes
the first occurrence anywhere; this definition exists to be compared with
`normalizeImageOptions`.) -/
def normalizeClaimC6 (p : ImageOptions) : ImageOptions :=
  let p :=
    if p.Registry = "" then { p with Registry := "registry-1.docker.io" }
    else if (p.Registry ++ "/").data.isPrefixOf p.Repository.data then
      { p with Repository := String.mk (p.Repository.data.drop (p.Registry ++ "/").data.length) }
    else p
  let p :=
    if p.Registry = "registry-1.docker.io" then
      if chContains p.Repository.data '/' then p
      else { p with Repository := "library/" ++ p.Repository }
    else p
  if p.Tag = "" then { p with Tag := "latest" } else p

/-- Remove the first occurrence of `pat` anywhere in a character list (an
independent, recursive phrasing of what `strings.Replace(s, pat, "", 1)` does, used
to state the amended claim C6). -/
def stripFirstOcc (pat : List Char) : List Char → List Char
  | [] => []
  | c :: t =>
    if pat ≠ [] ∧ pat.isPrefixOf (c :: t) then List.drop pat.length (c :: t)
    else c :: stripFirstOcc pat t

/-- Normalization as the amended claim C6 words it: the strip step removes the
first occurrence of `registry ++ "/"` anywhere in the repository, not only a
prefix. -/
def normalizeAmendedC6 (p : ImageOptions) : ImageOptions :=
  let p :=
    if p.Registry = "" then { p with Registry := "registry-1.docker.io" }
    else { p with Repository := String.mk (stripFirstOcc (p.Registry ++ "/").data p.Repository.data) }
  let p :=
    if p.Registry = "registry-1.docker.io" then
      if chContains p.Repository.data '/' then p
      else { p with Repository := "library/" ++ p.Repository }
    else p
  if p.Tag = "" then { p with Tag := "latest" } else p

/-- Does an outcome carry a `TokenParseError` (the `fmt.Errorf` message of line
166)? -/
def isTokenParseError : Outcome → Bool
  | .err m => goStartsWith m "Error parsing OAuth token response: "
  | _ => false

/-! ## Helper lemmas -/

theorem string_mk_data (s : String) : String.mk s.data = s := by cases s; rfl

theorem string_data_ext {a b : String} (h : a.data = b.data) : a = b := by
  cases a; cases b; exact congrArg String.mk h

theorem strData_append (a b : String) : (a ++ b).data = a.data ++ b.data := by
  cases a; cases b; rfl

theorem strAppendLeftCancel (a b c : String) (h : a ++ b = a ++ c) : b = c := by
  have hd : (a ++ b).data = (a ++ c).data := by rw [h]
  rw [strData_append, strData_append] at hd
  have := List.append_cancel_left hd
  calc b = String.mk b.data := (string_mk_data b).symm
    _ = String.mk c.data := by rw [this]
    _ = c := string_mk_data c

theorem all_getD {p : Char → Bool} :
    ∀ (l : List Char) (n : Nat) (d : Char), l.all p = true → p d = true →
      p (l.getD n d) = true
  | [], _, _, _, hd => hd
  | c :: t, 0, _, hl, _ => by
      simp only [List.all_cons, Bool.and_eq_true] at hl
      simpa [List.getD] using hl.1
  | c :: t, n + 1, d, hl, hd => by
      simp only [List.all_cons, Bool.and_eq_true] at hl
      simpa [List.getD] using all_getD t n d hl.2 hd

/-- The lowercase hex digits. -/
def lowerHexChars : List Char := "0123456789abcdef".data

/-- Does a string consist only of lowercase hex digits? -/
def isLowerHexStr (s : String) : Bool := s.data.all (fun c => chContains lowerHexChars c)

theorem hexDigitL_lower (n : Nat) : chContains lowerHexChars (hexDigitL n) = true := by
  unfold hexDigitL
  exact all_getD _ n '0' (by decide) (by decide)

theorem bytesToHexLower_isLowerHex (bs : List Nat) :
    isLowerHexStr (bytesToHexLower bs) = true := by
  induction bs with
  | nil => decide
  | cons b t ih =>
    simp only [isLowerHexStr, bytesToHexLower, List.flatMap_cons, List.all_append] at *
    simp [ih, hexDigitL_lower]

theorem flatMapPair_length (bs : List Nat) :
    (bs.flatMap (fun b => [hexDigitL (b / 16), hexDigitL (b % 16)])).length = 2 * bs.length := by
  induction bs with
  | nil => rfl
  | cons b t ih => simp [List.flatMap_cons, ih]; ring

theorem bytesToHexLower_length (bs : List Nat) :
    (bytesToHexLower bs).length = 2 * bs.length := by
  show (bs.flatMap (fun b => [hexDigitL (b / 16), hexDigitL (b % 16)])).length = 2 * bs.length
  exact flatMapPair_length bs

theorem sha256Round_length (st : List Nat) (kw : Nat × Nat) :
    (sha256Round st kw).length = 8 := rfl

theorem foldl_sha256Round_length :
    ∀ (l : List (Nat × Nat)) (st : List Nat), st.length = 8 →
      (l.foldl sha256Round st).length = 8
  | [], _, h => h
  | _ :: t, st, _ => by
      simpa using foldl_sha256Round_length t (sha256Round st _) (sha256Round_length st _)

theorem sha256Block_length (h b : List Nat) (hh : h.length = 8) :
    (sha256Block h b).length = 8 := by
  unfold sha256Block
  rw [List.length_map, List.length_zip, hh,
    foldl_sha256Round_length _ h hh]
  rfl

theorem foldl_sha256Block_length :
    ∀ (chunks : List (List Nat)) (h : List Nat), h.length = 8 →
      ((chunks.foldl sha256Block h).length = 8)
  | [], _, hh => hh
  | c :: t, h, hh => by
      simpa using foldl_sha256Block_length t (sha256Block h c) (sha256Block_length h c hh)

theorem flatMap4_length (l : List Nat) :
    (l.flatMap (fun w => [w / 16777216 % 256, w / 65536 % 256, w / 256 % 256, w % 256])).length
      = 4 * l.length := by
  induction l with
  | nil => rfl
  | cons w t ih => simp [List.flatMap_cons, ih]; ring

theorem sha256Bytes_length (msg : List Nat) : (sha256Bytes msg).length = 32 := by
  unfold sha256Bytes
  rw [flatMap4_length, foldl_sha256Block_length _ sha256H0 (by decide)]

/-! ## Claim C2 -/

/-- C2: for every 200-path response carrying a non-empty `Docker-Content-Digest`
header, `getDigestFromResponse` returns the header value verbatim, and the result
does not depend on the body (the body is not read). -/
theorem C2_digest_header_verbatim (resp : Response) (v : String)
    (hv : headerGet resp.headers "Docker-Content-Digest" = v) (hne : v ≠ "") :
    getDigestFromResponse resp = .ok v ∧
      ∀ body2 : List Nat, getDigestFromResponse { resp with body := body2 } = .ok v := by
  constructor
  · show (if headerGet resp.headers "Docker-Content-Digest" = "" then _ else _) = _
    rw [hv, if_neg hne]
  · intro b2
    show (if headerGet resp.headers "Docker-Content-Digest" = "" then _ else _) = _
    rw [hv, if_neg hne]

/-- C2 witness at a concrete response. -/
theorem C2_digest_header_verbatim_witness :
    getDigestFromResponse
        ⟨200, "200 OK", [("Docker-Content-Digest", "sha256:0123abcd")], [1, 2, 3]⟩
      = .ok "sha256:0123abcd" ∧
    getDigestFromResponse
        ⟨200, "200 OK", [("Docker-Content-Digest", "sha256:0123abcd")], [9, 9]⟩
      = .ok "sha256:0123abcd" := by
  have h := C2_digest_header_verbatim
    ⟨200, "200 OK", [("Docker-Content-Digest", "sha256:0123abcd")], [1, 2, 3]⟩
    "sha256:0123abcd" (by decide) (by decide)
  exact ⟨h.1, h.2 [9, 9]⟩

/-! ## Claim C3 -/

/-- C3: for every response with no (equivalently, an empty) `Docker-Content-Digest`
header, `getDigestFromResponse` returns `"sha256:" ++` the lowercase hex SHA-256 of
the exact body bytes; the result is a deterministic function of the body bytes, and
the hex part is 64 lowercase hex characters. -/
theorem C3_digest_of_body (resp : Response)
    (h : headerGet resp.headers "Docker-Content-Digest" = "") :
    getDigestFromResponse resp = .ok ("sha256:" ++ bytesToHexLower (sha256Bytes resp.body)) ∧
    (∀ resp2 : Response, headerGet resp2.headers "Docker-Content-Digest" = "" →
      resp2.body = resp.body → getDigestFromResponse resp2 = getDigestFromResponse resp) ∧
    isLowerHexStr (bytesToHexLower (sha256Bytes resp.body)) = true ∧
    (bytesToHexLower (sha256Bytes resp.body)).length = 64 := by
  have hmain : ∀ r : Response, headerGet r.headers "Docker-Content-Digest" = "" →
      getDigestFromResponse r = .ok ("sha256:" ++ bytesToHexLower (sha256Bytes r.body)) := by
    intro r hr
    show (if headerGet r.headers "Docker-Content-Digest" = "" then _ else _) = _
    rw [hr, if_pos rfl]
  refine ⟨hmain resp h, ?_, bytesToHexLower_isLowerHex _, ?_⟩
  · intro r2 h2 hb
    rw [hmain r2 h2, hmain resp h, hb]
  · rw [bytesToHexLower_length, sha256Bytes_length]

set_option maxRecDepth 8192 in
/-- C3 witness: the empty body hashes to the well-known SHA-256 of the empty
message. -/
theorem C3_digest_of_body_witness :
    getDigestFromResponse ⟨200, "200 OK", [], []⟩
      = .ok "sha256:e3b0c44298fc1c149afbf4c8996fb92427ae41e4649b934ca495991b7852b855" ∧
    getDigestFromResponse ⟨200, "200 OK", [("Content-Type", "application/json")], []⟩
      = getDigestFromResponse ⟨200, "200 OK", [], []⟩ := by
  have h := C3_digest_of_body ⟨200, "200 OK", [], []⟩ (by decide)
  refine ⟨h.1.trans ?_, h.2.1 ⟨200, "200 OK", [("Content-Type", "application/json")], []⟩ (by decide) rfl⟩
  rfl

/-! ## Claim C5: credential header of the manifest request -/

/-- C5 counterexample: `username = ""`, `password = "pw"` is a non-anonymous
credential pair (spec §3: anonymous means BOTH fields empty), yet the request for
the exception host `ghcr.io` carries no `Authorization` header at all — the code
branches on the username only. -/
theorem C5_counterexample :
    headerGet (buildManifestRequest "ghcr.io" "foo/bar" "v1" "" "pw" false).headers
        "Authorization" = "" ∧
      ("" : String) ≠ "Bearer " ++ base64Std (utf8Bytes "pw") := by decide

/-- C5 (amended): for every manifest request built with a NON-EMPTY USERNAME, the
exception host `ghcr.io` gets `Authorization: Bearer <base64(password)>` and every
other host gets HTTP basic auth `Authorization: Basic <base64(username:password)>`. -/
theorem C5_amended_auth_scheme (registry image tag username password : String)
    (fb : Bool) (hu : username ≠ "") :
    (registry = "ghcr.io" →
      headerGet (buildManifestRequest registry image tag username password fb).headers
          "Authorization" = "Bearer " ++ base64Std (utf8Bytes password)) ∧
    (registry ≠ "ghcr.io" →
      headerGet (buildManifestRequest registry image tag username password fb).headers
          "Authorization" = "Basic " ++ base64Std (utf8Bytes (username ++ ":" ++ password))) := by
  constructor
  · intro hreg
    subst hreg
    simp only [buildManifestRequest]
    rw [if_pos hu]
    cases fb <;> rfl
  · intro hreg
    simp only [buildManifestRequest]
    rw [if_pos hu, if_pos hreg]
    cases fb <;> rfl

/-- C5 witness: the end-to-end scenario of spec §8 — `ghcr.io` with credentials
`(user, tokenPW)` produces a bearer header with the base64 of the password. -/
theorem C5_amended_auth_scheme_witness :
    headerGet (buildManifestRequest "ghcr.io" "foo/bar" "v1" "user" "tokenPW" false).headers
        "Authorization" = "Bearer dG9rZW5QVw==" ∧
    headerGet (buildManifestRequest "example.com" "foo/bar" "v1" "user" "pw" false).headers
        "Authorization" = "Basic dXNlcjpwdw==" := by
  constructor
  · exact ((C5_amended_auth_scheme "ghcr.io" "foo/bar" "v1" "user" "tokenPW" false
      (by decide)).1 rfl).trans (by decide)
  · exact ((C5_amended_auth_scheme "example.com" "foo/bar" "v1" "user" "pw" false
      (by decide)).2 (by decide)).trans (by decide)

/-! ## Claim C6: reference normalization -/

theorem stripFirstOcc_eq (pat : List Char) (hpat : pat ≠ []) :
    ∀ s : List Char,
      (match substrIdx pat s with
       | none => s
       | some i => s.take i ++ s.drop (i + pat.length)) = stripFirstOcc pat s
  | [] => by
      have : substrIdx pat [] = none := by
        simp [substrIdx, List.isEmpty_iff, hpat]
      rw [this]
      rfl
  | c :: t => by
      by_cases hp : pat.isPrefixOf (c :: t) = true
      · have h1 : substrIdx pat (c :: t) = some 0 := by simp [substrIdx, hp]
        rw [h1]
        have h2 : stripFirstOcc pat (c :: t) = List.drop pat.length (c :: t) := by
          simp [stripFirstOcc, hpat, hp]
        rw [h2]
        simp
      · have h1 : substrIdx pat (c :: t) = (substrIdx pat t).map (· + 1) := by
          simp [substrIdx, hp]
        have h2 : stripFirstOcc pat (c :: t) = c :: stripFirstOcc pat t := by
          simp [stripFirstOcc, hp]
        rw [h1, h2, ← stripFirstOcc_eq pat hpat t]
        cases hidx : substrIdx pat t with
        | none => rfl
        | some i =>
          show List.take (i + 1) (c :: t) ++ List.drop (i + 1 + pat.length) (c :: t)
            = c :: (t.take i ++ t.drop (i + pat.length))
          have : i + 1 + pat.length = (i + pat.length) + 1 := by omega
          rw [this]
          rfl

theorem goReplaceOnce_strip (s old : String) (hold : old.data ≠ []) :
    goReplaceOnce s old "" = String.mk (stripFirstOcc old.data s.data) := by
  unfold goReplaceOnce
  rw [if_neg (fun h => hold (by rw [h]))]
  rw [← stripFirstOcc_eq old.data hold s.data]
  cases hidx : substrIdx old.data s.data with
  | none => exact (string_mk_data s).symm
  | some i =>
    refine congrArg String.mk ?_
    have hnil : "".data = ([] : List Char) := rfl
    simp [hnil]

theorem normalize_eq_amended (p : ImageOptions) :
    normalizeImageOptions p = normalizeAmendedC6 p := by
  unfold normalizeImageOptions normalizeAmendedC6
  by_cases hr : p.Registry = ""
  · rw [if_pos hr, if_pos hr]
  · rw [if_neg hr, if_neg hr,
      goReplaceOnce_strip p.Repository (p.Registry ++ "/")
        (by rw [strData_append]; simp)]

/-- C6 counterexample: for the parsed reference of `"a.b/x/a.b/y"` the code strips
the FIRST occurrence of `registry ++ "/"` anywhere in the repository (yielding
`x/y`), while the claim's rule (strip only a literal prefix) would leave
`x/a.b/y` unchanged. -/
theorem C6_counterexample :
    parseImageOptions "a.b/x/a.b/y" = ⟨"a.b", "x/a.b/y", ""⟩ ∧
    normalizeImageOptions ⟨"a.b", "x/a.b/y", ""⟩ = ⟨"a.b", "x/y", "latest"⟩ ∧
    normalizeClaimC6 ⟨"a.b", "x/a.b/y", ""⟩ = ⟨"a.b", "x/a.b/y", "latest"⟩ ∧
    normalizeImageOptions ⟨"a.b", "x/a.b/y", ""⟩ ≠ normalizeClaimC6 ⟨"a.b", "x/a.b/y", ""⟩ := by
  decide

/-- C6 (amended): normalization defaults an empty registry to
`registry-1.docker.io`; otherwise it removes the FIRST occurrence of
`registry ++ "/"` ANYWHERE in the repository (not only a leading prefix); it
prepends `library/` when the resolved registry is the default host and the
repository has no `/`; and it defaults an empty tag to `latest`. In particular the
spec §8 examples hold: `alpine`, `myregistry.com/foo/bar:1.2`, `consul:1.9`. -/
theorem C6_amended_normalization :
    (∀ p : ImageOptions, normalizeImageOptions p = normalizeAmendedC6 p) ∧
    normalizeImageOptions (parseImageOptions "alpine")
      = ⟨"registry-1.docker.io", "library/alpine", "latest"⟩ ∧
    normalizeImageOptions (parseImageOptions "myregistry.com/foo/bar:1.2")
      = ⟨"myregistry.com", "foo/bar", "1.2"⟩ ∧
    normalizeImageOptions (parseImageOptions "consul:1.9")
      = ⟨"registry-1.docker.io", "library/consul", "1.9"⟩ :=
  ⟨normalize_eq_amended, by decide, by decide, by decide⟩

/-! ## Claim C7: the token-endpoint request -/

theorem strAppend_assoc (a b c : String) : a ++ b ++ c = a ++ (b ++ c) :=
  string_data_ext (by simp [strData_append])

theorem intercalate_pair (a b : String) : String.intercalate "&" [a, b] = a ++ "&" ++ b := rfl

theorem urlValuesEncode_pair (s c : String) :
    urlValuesEncode [("service", s), ("scope", c)]
      = "scope=" ++ queryEscape c ++ "&" ++ "service=" ++ queryEscape s := by
  have e1 : queryEscape "scope" ++ "=" = "scope=" := by decide
  have e2 : queryEscape "service" ++ "=" = "service=" := by decide
  calc urlValuesEncode [("service", s), ("scope", c)]
      = queryEscape "scope" ++ "=" ++ queryEscape c ++ "&" ++
          (queryEscape "service" ++ "=" ++ queryEscape s) := intercalate_pair _ _
    _ = "scope=" ++ queryEscape c ++ "&" ++ ("service=" ++ queryEscape s) := by rw [e1, e2]
    _ = "scope=" ++ queryEscape c ++ "&" ++ "service=" ++ queryEscape s := by
          rw [strAppend_assoc ("scope=" ++ queryEscape c ++ "&") "service=" (queryEscape s)]

/-- C7 counterexample: on the spec §8 challenge, the code's token URL has the
query parameters SORTED BY NAME — `scope` before `service` (Go
`url.Values.Encode()` sorts keys) — not `service` first as the claim states. -/
theorem C7_counterexample :
    parseAuthHeader "Bearer realm=\"https://auth.example/token\",service=\"registry.example\",scope=\"repository:foo/bar:pull\""
      = some [("realm", "https://auth.example/token"), ("service", "registry.example"),
              ("scope", "repository:foo/bar:pull")] ∧
    (buildTokenRequest [("realm", "https://auth.example/token"),
        ("service", "registry.example"), ("scope", "repository:foo/bar:pull")] "" "").url
      = "https://auth.example/token?scope=repository%3Afoo%2Fbar%3Apull&service=registry.example" ∧
    (buildTokenRequest [("realm", "https://auth.example/token"),
        ("service", "registry.example"), ("scope", "repository:foo/bar:pull")] "" "").url
      ≠ "https://auth.example/token?service=registry.example&scope=repository%3Afoo%2Fbar%3Apull" := by
  decide

/-- C7 (amended): the token-endpoint URL is
`<realm>?scope=<scope>&service=<service>` — parameters sorted by name, so `scope`
comes FIRST — with both values URL-encoded, and HTTP basic auth is attached if and
only if the USERNAME is non-empty (an empty username with a non-empty password
attaches nothing). -/
theorem C7_amended_token_request (auth : List (String × String)) (username password : String) :
    (buildTokenRequest auth username password).url
      = authGet auth "realm" ++ "?" ++
          ("scope=" ++ queryEscape (authGet auth "scope") ++ "&" ++ "service=" ++
            queryEscape (authGet auth "service")) ∧
    (username ≠ "" → (buildTokenRequest auth username password).headers
      = [("Authorization", "Basic " ++ base64Std (utf8Bytes (username ++ ":" ++ password)))]) ∧
    (username = "" → (buildTokenRequest auth username password).headers = []) := by
  refine ⟨?_, ?_, ?_⟩
  · by_cases hu : username ≠ ""
    · show (if username ≠ "" then _ else _ : Request).url = _
      rw [if_pos hu]
      show authGet auth "realm" ++ "?" ++ urlValuesEncode _ = _
      rw [urlValuesEncode_pair]
    · show (if username ≠ "" then _ else _ : Request).url = _
      rw [if_neg hu]
      show authGet auth "realm" ++ "?" ++ urlValuesEncode _ = _
      rw [urlValuesEncode_pair]
  · intro hu
    show (if username ≠ "" then _ else _ : Request).headers = _
    rw [if_pos hu]
    rfl
  · intro hu
    show (if username ≠ "" then _ else _ : Request).headers = _
    rw [if_neg (by simp [hu])]

/-- C7 witness at concrete challenge values and credentials. -/
theorem C7_amended_token_request_witness :
    (buildTokenRequest [("realm", "https://a/t"), ("service", "s"), ("scope", "p")]
        "u" "pw").url = "https://a/t?scope=p&service=s" ∧
    (buildTokenRequest [("realm", "https://a/t"), ("service", "s"), ("scope", "p")]
        "u" "pw").headers = [("Authorization", "Basic dTpwdw==")] := by
  have h := C7_amended_token_request
    [("realm", "https://a/t"), ("service", "s"), ("scope", "p")] "u" "pw"
  exact ⟨h.1.trans (by decide), (h.2.1 (by decide)).trans (by decide)⟩

/-! ## Claim C9: the shared default client -/

/-- A world that always answers 200 with a digest header. -/
def constWorld200 : World := fun _ _ =>
  .ok ⟨200, "200 OK", [("Docker-Content-Digest", "sha256:aa")], []⟩

/-- C9 (the code violates the claim): `getImageDigest` overwrites the transport of
the process-wide shared `http.DefaultClient` with its own `InsecureSkipVerify`
flag, REGARDLESS of the state it found — so a lookup with the flag set mutates the
shared global client state observed by the next lookup (spec §9 flags exactly this
global-client mutation as a defect). -/
theorem C9_global_client_mutation :
    (getImageDigest constWorld200 ⟨false⟩ "registry.example" "foo" "latest" "" ""
        true false).1 = ⟨true⟩ ∧
    (⟨true⟩ : GlobalHttp) ≠ ⟨false⟩ ∧
    (∀ g : GlobalHttp, (getImageDigest constWorld200 g "registry.example" "foo" "latest"
        "" "" true false).1 = ⟨true⟩) :=
  ⟨rfl, by decide, fun _ => rfl⟩

/-! ## Claim C10: partiality of `parseAuthHeader` -/

theorem foldlM_parts_isSome :
    ∀ (parts : List (List Char)) (opts : List (String × String)),
      parts.all (fun p => chContains p '=') = true →
      (parts.foldlM
        (fun opts part =>
          match splitN2Char '=' part with
          | [k, v] => some (assocSet opts (String.mk k) (String.mk (trimBothSet authTrimCutset v)))
          | _ => none)
        opts).isSome = true
  | [], _, _ => rfl
  | p :: t, opts, hall => by
      simp only [List.all_cons, Bool.and_eq_true] at hall
      have hstep : splitN2Char '=' p
          = [p.takeWhile (fun x => x ≠ '='), (p.dropWhile (fun x => x ≠ '=')).drop 1] := by
        unfold splitN2Char
        rw [if_pos hall.1]
      simp only [List.foldlM_cons, hstep]
      exact foldlM_parts_isSome t _ hall.2

/-- C10: `parseAuthHeader` returns a map whenever the header contains a space and
every comma-separated parameter after the scheme token contains an `=`
(`authHeaderWF`); on inputs violating this precondition the unchecked `parts[1]` /
`vals[1]` indexing panics — `"Bearer"` (no space) and `"Bearer realm"` (a
parameter with no `=`) both panic, modelled as `none`. -/
theorem C10_parseAuthHeader_precondition :
    (∀ h : String, authHeaderWF h = true → (parseAuthHeader h).isSome = true) ∧
    parseAuthHeader "Bearer" = none ∧
    parseAuthHeader "Bearer realm" = none := by
  refine ⟨?_, by decide, by decide⟩
  intro h hwf
  unfold authHeaderWF at hwf
  rw [Bool.and_eq_true] at hwf
  have hsp : splitN2Char ' ' h.data
      = [h.data.takeWhile (fun x => x ≠ ' '), (h.data.dropWhile (fun x => x ≠ ' ')).drop 1] := by
    unfold splitN2Char
    rw [if_pos hwf.1]
  have hall := hwf.2
  rw [hsp] at hall
  unfold parseAuthHeader
  rw [hsp]
  exact foldlM_parts_isSome _ [] hall

/-- C10 witness: a well-formed bearer challenge satisfies the precondition and
parses. -/
theorem C10_parseAuthHeader_precondition_witness :
    authHeaderWF "Bearer realm=\"https://auth.example/token\",service=\"reg\"" = true ∧
    (parseAuthHeader "Bearer realm=\"https://auth.example/token\",service=\"reg\"").isSome
      = true :=
  ⟨by decide, C10_parseAuthHeader_precondition.1 _ (by decide)⟩

/-! ## Claim C4: the fallback orchestrator -/

theorem wrapReadErr_inj (r t e1 e2 : String)
    (h : wrapReadErr r t e1 = wrapReadErr r t e2) : e1 = e2 :=
  strAppendLeftCancel _ _ _ h

/-- Every call of `getImageDigest` overwrites the shared client state with its own flag. -/
theorem getImageDigest_fst (world : World) (g : GlobalHttp)
    (registry image tag username password : String) (skip fb : Bool) :
    (getImageDigest world g registry image tag username password skip fb).1 = ⟨skip⟩ := rfl

/-- C4: whenever the first (modern media-type) attempt returns an error, the read
always performs the full second (legacy) attempt — its trace is appended — and the
surfaced outcome is determined by the second attempt alone: its digest on success,
its error (wrapped in the `diag.Errorf` message) on failure, and never the wrapped
first error when the two errors differ. The second attempt is the very same value
as a standalone legacy call started from ANY client state, so no request or auth
state flows from the first attempt into the second. -/
theorem C4_fallback_second_attempt (world : World) (g : GlobalHttp)
    (registry repository tag username password : String) (skip : Bool) (e1 : String)
    (h1 : (getImageDigest world g registry repository tag username password skip false).2.1
      = .err e1) :
    (readImageDigest world g registry repository tag username password skip).2.2
      = (getImageDigest world g registry repository tag username password skip false).2.2 ++
        (getImageDigest world ⟨skip⟩ registry repository tag username password skip true).2.2 ∧
    (∀ e2,
      (getImageDigest world ⟨skip⟩ registry repository tag username password skip true).2.1
        = .err e2 →
      (readImageDigest world g registry repository tag username password skip).2.1
        = .err (wrapReadErr repository tag e2)) ∧
    (∀ d,
      (getImageDigest world ⟨skip⟩ registry repository tag username password skip true).2.1
        = .ok d →
      (readImageDigest world g registry repository tag username password skip).2.1 = .ok d) ∧
    (∀ e2,
      (getImageDigest world ⟨skip⟩ registry repository tag username password skip true).2.1
        = .err e2 → e1 ≠ e2 →
      (readImageDigest world g registry repository tag username password skip).2.1
        ≠ .err (wrapReadErr repository tag e1)) ∧
    (∀ g2 : GlobalHttp,
      getImageDigest world g2 registry repository tag username password skip true
        = getImageDigest world ⟨skip⟩ registry repository tag username password skip true) := by
  refine ⟨?_, ?_, ?_, ?_, fun _ => rfl⟩
  · cases hsec : (getImageDigest world ⟨skip⟩ registry repository tag username password
        skip true).2.1 with
    | ok d => simp only [readImageDigest, h1, getImageDigest_fst, hsec]
    | err e2 => simp only [readImageDigest, h1, getImageDigest_fst, hsec]
    | panic => simp only [readImageDigest, h1, getImageDigest_fst, hsec]
  · intro e2 hsec
    simp only [readImageDigest, h1, getImageDigest_fst, hsec]
  · intro d hsec
    simp only [readImageDigest, h1, getImageDigest_fst, hsec]
  · intro e2 hsec hne heq
    simp only [readImageDigest, h1, getImageDigest_fst, hsec, Outcome.err.injEq] at heq
    exact hne (wrapReadErr_inj repository tag e2 e1 heq).symm

/-- A world in which every request gets a 500 response. -/
def w500 : World := fun _ _ => .ok ⟨500, "500 Internal Server Error", [], []⟩

/-- C4 witness: both attempts fail against `w500`; the surfaced error is the second
attempt's error wrapped in the `diag.Errorf` message, and the trace holds the two
manifest requests. -/
theorem C4_fallback_second_attempt_witness :
    (readImageDigest w500 ⟨false⟩ "registry.example" "foo" "latest" "" "" false).2.1
      = .err ("Got error when attempting to fetch image version foo:latest from registry: " ++
          "Got bad response from registry: 500 Internal Server Error") ∧
    (readImageDigest w500 ⟨false⟩ "registry.example" "foo" "latest" "" "" false).2.2
      = (getImageDigest w500 ⟨false⟩ "registry.example" "foo" "latest" "" "" false false).2.2 ++
        (getImageDigest w500 ⟨false⟩ "registry.example" "foo" "latest" "" "" false true).2.2 := by
  have h := C4_fallback_second_attempt w500 ⟨false⟩ "registry.example" "foo" "latest" "" ""
    false "Got bad response from registry: 500 Internal Server Error" (by decide)
  refine ⟨(h.2.1 "Got bad response from registry: 500 Internal Server Error" (by decide)).trans ?_, h.1⟩
  decide

/-! ## Claim C1: status-code dispatch of `getImageDigest` -/

theorem countKind_nil (k : ReqKind) : countKind [] k = 0 := rfl

theorem countKind_cons (e : TraceEntry) (tr : List TraceEntry) (k : ReqKind) :
    countKind (e :: tr) k = if e.kind = k then 1 + countKind tr k else countKind tr k := by
  by_cases h : e.kind = k
  · simp [countKind, List.filter_cons, h, Nat.add_comm]
  · simp [countKind, List.filter_cons, h]

/-- A world producing a 401 bearer challenge on the manifest request and a 500 on
the token request. -/
def c1xWorld : World := fun _ r =>
  if r.url = "https://registry.example/v2/foo/manifests/latest" then
    .ok ⟨401, "401 Unauthorized",
      [("Www-Authenticate",
        "Bearer realm=\"https://auth.example/token\",service=\"registry.example\",scope=\"repository:foo:pull\"")],
      []⟩
  else .ok ⟨503, "503 Service Unavailable", [], []⟩

/-- A world producing a 401 bearer challenge whose realm contains the invalid
percent-escape `%zz`, so `http.NewRequest` on the token URL fails. -/
def c1yWorld : World := fun _ _ =>
  .ok ⟨401, "401 Unauthorized",
    [("Www-Authenticate", "Bearer realm=\"https://a/%zz\",service=\"s\",scope=\"p\"")],
    []⟩

/-- C1 counterexample: on a 401 response with a well-formed `Bearer` challenge
whose token endpoint answers 503, the call performs exactly one token fetch but NO
retried manifest request (it fails first), refuting "exactly one token fetch
followed by exactly one retried manifest request"; and on a `Bearer` challenge
whose realm is an invalid URL, `http.NewRequest` fails (lines 141–143) with ZERO
token fetches, refuting even "exactly one token fetch". -/
theorem C1_counterexample :
    countKind (getImageDigestCore c1xWorld false "registry.example" "foo" "latest"
        "" "" false).2 .token = 1 ∧
    countKind (getImageDigestCore c1xWorld false "registry.example" "foo" "latest"
        "" "" false).2 .retry = 0 ∧
    ¬ countKind (getImageDigestCore c1xWorld false "registry.example" "foo" "latest"
        "" "" false).2 .retry = 1 ∧
    (getImageDigestCore c1yWorld false "registry.example" "foo" "latest" "" "" false).1
      = .err ("Error creating registry request: " ++
          "parse \"https://a/%zz?scope=p&service=s\": invalid URL escape \"%zz\"") ∧
    countKind (getImageDigestCore c1yWorld false "registry.example" "foo" "latest"
        "" "" false).2 .token = 0 := by
  decide

/-- C1 (amended): provided the manifest URL builds (`http.NewRequest` succeeds),
writing `req` for the initial manifest request, for every response `resp` the
world gives it: a 200 is handed to `getDigestFromResponse` and no further request
is made; a 401 without a `Bearer`-prefixed `www-authenticate` fails with
`BadCredentials` and no token fetch; any other status fails with `RegistryError`
and no further request; a 401 with a `Bearer` challenge that the challenge parser
cannot split panics BEFORE any token fetch; a 401 with a parsed `Bearer`
challenge whose token URL does NOT build (e.g. a realm with an invalid
percent-escape) fails with `Error creating registry request` and ZERO token
fetches; and a 401 with a parsed `Bearer` challenge whose token URL builds
performs exactly one token fetch, at most one retried manifest request, with the
retry performed exactly when the token fetch returns a 200 whose body unmarshals
to a token. -/
theorem C1_amended_dispatch (world : World)
    (registry image tag username password : String) (skip fb : Bool) (resp : Response)
    (hm : newRequestErr (manifestURL registry image tag) = none)
    (hw : world skip (buildManifestRequest registry image tag username password fb)
      = .ok resp) :
    (resp.statusCode = 200 →
      getImageDigestCore world skip registry image tag username password fb
        = (outcomeOfDigest (getDigestFromResponse resp),
           [⟨.manifest, skip, buildManifestRequest registry image tag username password fb⟩])) ∧
    (resp.statusCode = 401 →
      goStartsWith (headerGet resp.headers "www-authenticate") "Bearer" = false →
      getImageDigestCore world skip registry image tag username password fb
        = (.err ("Bad credentials: " ++ resp.status),
           [⟨.manifest, skip, buildManifestRequest registry image tag username password fb⟩])) ∧
    (resp.statusCode ≠ 200 → resp.statusCode ≠ 401 →
      getImageDigestCore world skip registry image tag username password fb
        = (.err ("Got bad response from registry: " ++ resp.status),
           [⟨.manifest, skip, buildManifestRequest registry image tag username password fb⟩])) ∧
    (resp.statusCode = 401 →
      goStartsWith (headerGet resp.headers "www-authenticate") "Bearer" = true →
      parseAuthHeader (headerGet resp.headers "www-authenticate") = none →
      getImageDigestCore world skip registry image tag username password fb
        = (.panic,
           [⟨.manifest, skip, buildManifestRequest registry image tag username password fb⟩])) ∧
    (∀ auth, resp.statusCode = 401 →
      goStartsWith (headerGet resp.headers "www-authenticate") "Bearer" = true →
      parseAuthHeader (headerGet resp.headers "www-authenticate") = some auth →
      (∀ e, newRequestErr (buildTokenURL auth) = some e →
        getImageDigestCore world skip registry image tag username password fb
          = (.err ("Error creating registry request: " ++ e),
             [⟨.manifest, skip, buildManifestRequest registry image tag username password fb⟩])) ∧
      (newRequestErr (buildTokenURL auth) = none →
        countKind (getImageDigestCore world skip registry image tag username password fb).2
            .token = 1 ∧
        countKind (getImageDigestCore world skip registry image tag username password fb).2
            .retry ≤ 1 ∧
        ((∃ tresp tok, world skip (buildTokenRequest auth username password) = .ok tresp ∧
            tresp.statusCode = 200 ∧ unmarshalTokenResponse tresp.body = .ok tok) ↔
          countKind (getImageDigestCore world skip registry image tag username password fb).2
            .retry = 1))) := by
  refine ⟨?_, ?_, ?_, ?_, ?_⟩
  · intro h200
    simp only [getImageDigestCore, hm, hw]
    rw [if_pos h200]
  · intro h401 hnb
    simp only [getImageDigestCore, hm, hw]
    rw [if_neg (by omega), if_pos h401, if_neg (by simp [hnb])]
  · intro h200 h401
    simp only [getImageDigestCore, hm, hw]
    rw [if_neg h200, if_neg h401]
  · intro h401 hb hnone
    simp only [getImageDigestCore, hm, hw]
    rw [if_neg (by omega), if_pos h401, if_pos hb, hnone]
  · intro auth h401 hb hsome
    constructor
    · intro e hte
      simp only [getImageDigestCore, hm, hw]
      rw [if_neg (by omega), if_pos h401, if_pos hb, hsome]
      dsimp only
      rw [hte]
    · intro htu
      simp only [getImageDigestCore, hm, hw]
      rw [if_neg (by omega), if_pos h401, if_pos hb, hsome]
      dsimp only
      rw [htu]
      dsimp only
      cases htok : world skip (buildTokenRequest auth username password) with
      | error e =>
        refine ⟨by simp [countKind_cons, countKind_nil], by simp [countKind_cons, countKind_nil], ?_⟩
        refine iff_of_false ?_ (by simp [countKind_cons, countKind_nil])
        rintro ⟨tresp, tok, heq, -, -⟩
        exact Except.noConfusion heq
      | ok tresp =>
        dsimp only
        by_cases hst : tresp.statusCode = 200
        · rw [if_neg (show ¬tresp.statusCode ≠ 200 by simp [hst])]
          cases hum : unmarshalTokenResponse tresp.body with
          | error e =>
            refine ⟨by simp [countKind_cons, countKind_nil],
              by simp [countKind_cons, countKind_nil], ?_⟩
            refine iff_of_false ?_ (by simp [countKind_cons, countKind_nil])
            rintro ⟨tresp2, tok, heq, -, hum2⟩
            injection heq with h2
            rw [← h2, hum] at hum2
            exact Except.noConfusion hum2
          | ok tok =>
            dsimp only
            have hret : (∃ tresp2 tok2,
                Except.ok (ε := String) tresp = .ok tresp2 ∧
                  tresp2.statusCode = 200 ∧ unmarshalTokenResponse tresp2.body = .ok tok2) :=
              ⟨tresp, tok, rfl, hst, hum⟩
            cases hrt : world skip
                { url := (buildManifestRequest registry image tag username password fb).url,
                  headers := headerSet
                    (buildManifestRequest registry image tag username password fb).headers
                    "Authorization" ("Bearer " ++ tok.Token) } with
            | error e2 =>
              exact ⟨by simp [countKind_cons, countKind_nil],
                by simp [countKind_cons, countKind_nil],
                iff_of_true hret (by simp [countKind_cons, countKind_nil])⟩
            | ok dresp =>
              dsimp only
              by_cases hds : dresp.statusCode = 200
              · rw [if_neg (show ¬dresp.statusCode ≠ 200 by simp [hds])]
                exact ⟨by simp [countKind_cons, countKind_nil],
                  by simp [countKind_cons, countKind_nil],
                  iff_of_true hret (by simp [countKind_cons, countKind_nil])⟩
              · rw [if_pos hds]
                exact ⟨by simp [countKind_cons, countKind_nil],
                  by simp [countKind_cons, countKind_nil],
                  iff_of_true hret (by simp [countKind_cons, countKind_nil])⟩
        · rw [if_pos hst]
          refine ⟨by simp [countKind_cons, countKind_nil],
            by simp [countKind_cons, countKind_nil], ?_⟩
          refine iff_of_false ?_ (by simp [countKind_cons, countKind_nil])
          rintro ⟨tresp2, tok, heq, hst2, -⟩
          injection heq with h2
          rw [← h2] at hst2
          exact hst hst2

/-- A world that always answers 200 with a digest header. -/
def c1okWorld : World := fun _ _ =>
  .ok ⟨200, "200 OK", [("Docker-Content-Digest", "sha256:ab")], []⟩

/-- C1 witness: against a 200-answering world the call returns the extracted
digest and the trace holds only the initial manifest request. -/
theorem C1_amended_dispatch_witness :
    getImageDigestCore c1okWorld false "registry.example" "foo" "latest" "" "" false
      = (.ok "sha256:ab",
         [⟨.manifest, false, buildManifestRequest "registry.example" "foo" "latest" "" "" false⟩]) := by
  have h := (C1_amended_dispatch c1okWorld "registry.example" "foo" "latest" "" "" false false
    ⟨200, "200 OK", [("Docker-Content-Digest", "sha256:ab")], []⟩ rfl rfl).1 rfl
  exact h.trans (by decide)

/-! ## Claim C8: token-response decoding and the retried request -/

theorem headerGet_headerSet_self (hs : List (String × String)) (k v : String) :
    headerGet (headerSet hs k v) k = v := by
  have main : ∀ l : List (String × String),
      List.find? (fun kv => lowerStr kv.1 == lowerStr k)
        (l.filter (fun kv => lowerStr kv.1 != lowerStr k) ++ [(k, v)]) = some (k, v) := by
    intro l
    induction l with
    | nil => simp [List.find?]
    | cons x t ih =>
      by_cases hx : (lowerStr x.1 == lowerStr k) = true
      · have hbne : (lowerStr x.1 != lowerStr k) = false := by simp [bne, hx]
        simp [List.filter_cons, hbne, ih]
      · have h2 : (lowerStr x.1 == lowerStr k) = false := by simpa using hx
        have hbne : (lowerStr x.1 != lowerStr k) = true := by simp [bne, h2]
        simp [List.filter_cons, hbne, List.find?_cons, h2, ih]
  show (match List.find? (fun kv => lowerStr kv.1 == lowerStr k)
        (hs.filter (fun kv => lowerStr kv.1 != lowerStr k) ++ [(k, v)]) with
      | some kv => kv.2
      | none => "") = v
  rw [main hs]

/-- A world whose token endpoint answers 200 with the two bytes `0x7B 0x7D` (an
empty JSON object, i.e. no `token` field), and which accepts the retried manifest
request carrying the resulting empty bearer token. -/
def c8xWorld : World := fun _ r =>
  if r.url = "https://auth.example/token?scope=p&service=s" then
    .ok ⟨200, "200 OK", [], [123, 125]⟩
  else if headerGet r.headers "Authorization" = "Bearer " then
    .ok ⟨200, "200 OK", [("Docker-Content-Digest", "sha256:cd")], []⟩
  else
    .ok ⟨401, "401 Unauthorized",
      [("Www-Authenticate", "Bearer realm=\"https://auth.example/token\",service=\"s\",scope=\"p\"")],
      []⟩

/-- C8 counterexample: a token body that is valid JSON but MISSING the `token`
field does NOT fail with `TokenParseError` — `json.Unmarshal` leaves the zero
value, and the handshake retries with the header `Authorization: Bearer ` (empty
token) and succeeds. -/
theorem C8_counterexample :
    unmarshalTokenResponse [123, 125] = .ok ⟨""⟩ ∧
    isTokenParseError (getImageDigestCore c8xWorld false "registry.example" "foo" "latest"
        "" "" false).1 = false ∧
    (getImageDigestCore c8xWorld false "registry.example" "foo" "latest" "" "" false).1
      = .ok "sha256:cd" ∧
    countKind (getImageDigestCore c8xWorld false "registry.example" "foo" "latest"
        "" "" false).2 .retry = 1 ∧
    headerGet (((getImageDigestCore c8xWorld false "registry.example" "foo" "latest"
        "" "" false).2.getD 2 ⟨.manifest, false, ⟨"", []⟩⟩).req.headers) "Authorization"
      = "Bearer " := by
  decide

/-- C8 (amended): on a 401 `Bearer` path whose token endpoint answers 200 with
body `b`: the handshake fails with `TokenParseError` exactly when
`json.Unmarshal` of `b` into the token struct fails (a missing `token` field is
NOT a failure — the token is then the empty string); when unmarshalling succeeds
the retried manifest request is issued with `Authorization: Bearer <token>` SET,
replacing any prior `Authorization` header. -/
theorem C8_amended_token_handling (world : World)
    (registry image tag username password : String) (skip fb : Bool)
    (resp : Response) (auth : List (String × String)) (tresp : Response)
    (hm : newRequestErr (manifestURL registry image tag) = none)
    (hw : world skip (buildManifestRequest registry image tag username password fb)
      = .ok resp)
    (h401 : resp.statusCode = 401)
    (hb : goStartsWith (headerGet resp.headers "www-authenticate") "Bearer" = true)
    (hparse : parseAuthHeader (headerGet resp.headers "www-authenticate") = some auth)
    (htu : newRequestErr (buildTokenURL auth) = none)
    (htok : world skip (buildTokenRequest auth username password) = .ok tresp)
    (h200 : tresp.statusCode = 200) :
    (∀ e, unmarshalTokenResponse tresp.body = .error e →
      (getImageDigestCore world skip registry image tag username password fb).1
        = .err ("Error parsing OAuth token response: " ++ e) ∧
      countKind (getImageDigestCore world skip registry image tag username password fb).2
        .retry = 0) ∧
    (∀ tok, unmarshalTokenResponse tresp.body = .ok tok →
      (getImageDigestCore world skip registry image tag username password fb).2
        = [⟨.manifest, skip, buildManifestRequest registry image tag username password fb⟩,
           ⟨.token, skip, buildTokenRequest auth username password⟩,
           ⟨.retry, skip,
             { url := (buildManifestRequest registry image tag username password fb).url,
               headers := headerSet
                 (buildManifestRequest registry image tag username password fb).headers
                 "Authorization" ("Bearer " ++ tok.Token) }⟩] ∧
      headerGet (headerSet (buildManifestRequest registry image tag username password fb).headers
          "Authorization" ("Bearer " ++ tok.Token)) "Authorization"
        = "Bearer " ++ tok.Token) := by
  have hred : ∀ P : Outcome × List TraceEntry → Prop,
      (P (match unmarshalTokenResponse tresp.body with
          | .error e =>
            (.err ("Error parsing OAuth token response: " ++ e),
             [⟨.manifest, skip, buildManifestRequest registry image tag username password fb⟩] ++
               [⟨.token, skip, buildTokenRequest auth username password⟩])
          | .ok token =>
            let req2 : Request :=
              { url := (buildManifestRequest registry image tag username password fb).url,
                headers := headerSet
                  (buildManifestRequest registry image tag username password fb).headers
                  "Authorization" ("Bearer " ++ token.Token) }
            let t2 :=
              [⟨.manifest, skip, buildManifestRequest registry image tag username password fb⟩] ++
                [⟨.token, skip, buildTokenRequest auth username password⟩] ++
                [⟨.retry, skip, req2⟩]
            match world skip req2 with
            | .error e => (.err ("Error during registry request: " ++ e), t2)
            | .ok digestResponse =>
              if digestResponse.statusCode ≠ 200 then
                (.err ("Got bad response from registry: " ++ digestResponse.status), t2)
              else (outcomeOfDigest (getDigestFromResponse digestResponse), t2))) →
      P (getImageDigestCore world skip registry image tag username password fb) := by
    intro P hP
    simp only [getImageDigestCore, hm, hw]
    rw [if_neg (by omega), if_pos h401, if_pos hb, hparse]
    dsimp only
    rw [htu]
    dsimp only
    rw [htok]
    dsimp only
    rw [if_neg (show ¬tresp.statusCode ≠ 200 by simp [h200])]
    exact hP
  constructor
  · intro e he
    refine hred (fun r => r.1 = .err ("Error parsing OAuth token response: " ++ e) ∧
      countKind r.2 .retry = 0) ?_
    rw [he]
    exact ⟨rfl, by simp [countKind_cons, countKind_nil]⟩
  · intro tok htokOk
    refine hred (fun r => r.2 = _ ∧ _) ?_
    rw [htokOk]
    dsimp only
    cases world skip
        { url := (buildManifestRequest registry image tag username password fb).url,
          headers := headerSet
            (buildManifestRequest registry image tag username password fb).headers
            "Authorization" ("Bearer " ++ tok.Token) } with
    | error e2 => exact ⟨by simp, headerGet_headerSet_self _ _ _⟩
    | ok dresp =>
      dsimp only
      by_cases hds : dresp.statusCode = 200
      · rw [if_neg (show ¬dresp.statusCode ≠ 200 by simp [hds])]
        exact ⟨by simp, headerGet_headerSet_self _ _ _⟩
      · rw [if_pos hds]
        exact ⟨by simp, headerGet_headerSet_self _ _ _⟩

/-- A world whose token endpoint answers 200 with body bytes spelling a JSON
object with field `token` of value `abc`, and which accepts the retried manifest
request carrying `Authorization: Bearer abc`. -/
def c8wWorld : World := fun _ r =>
  if r.url = "https://auth.example/token?scope=p&service=s" then
    .ok ⟨200, "200 OK", [],
      [123, 34, 116, 111, 107, 101, 110, 34, 58, 34, 97, 98, 99, 34, 125]⟩
  else if headerGet r.headers "Authorization" = "Bearer abc" then
    .ok ⟨200, "200 OK", [("Docker-Content-Digest", "sha256:ef")], []⟩
  else
    .ok ⟨401, "401 Unauthorized",
      [("Www-Authenticate", "Bearer realm=\"https://auth.example/token\",service=\"s\",scope=\"p\"")],
      []⟩

/-- C8 witness: the retried manifest request carries the parsed bearer token in a
replaced `Authorization` header. -/
theorem C8_amended_token_handling_witness :
    (getImageDigestCore c8wWorld false "registry.example" "foo" "latest" "" "" false).2
      = [⟨.manifest, false, buildManifestRequest "registry.example" "foo" "latest" "" "" false⟩,
         ⟨.token, false,
           buildTokenRequest
             [("realm", "https://auth.example/token"), ("service", "s"), ("scope", "p")] "" ""⟩,
         ⟨.retry, false,
           { url := (buildManifestRequest "registry.example" "foo" "latest" "" "" false).url,
             headers := headerSet
               (buildManifestRequest "registry.example" "foo" "latest" "" "" false).headers
               "Authorization" "Bearer abc" }⟩] ∧
    headerGet (headerSet
        (buildManifestRequest "registry.example" "foo" "latest" "" "" false).headers
        "Authorization" "Bearer abc") "Authorization" = "Bearer abc" := by
  have h := (C8_amended_token_handling c8wWorld "registry.example" "foo" "latest" "" "" false
    false
    ⟨401, "401 Unauthorized",
      [("Www-Authenticate", "Bearer realm=\"https://auth.example/token\",service=\"s\",scope=\"p\"")],
      []⟩
    [("realm", "https://auth.example/token"), ("service", "s"), ("scope", "p")]
    ⟨200, "200 OK", [], [123, 34, 116, 111, 107, 101, 110, 34, 58, 34, 97, 98, 99, 34, 125]⟩
    rfl rfl rfl (by decide) (by decide) (by decide) rfl rfl).2 ⟨"abc"⟩ (by decide)
  exact h

end DockerRegistry
